import Mathlib

/-!
Shallow embedding of `src/app.py` (Bollinger-band scanner, single Streamlit app).

Numbers: Python floats are modelled by a linear ordered field `α`; every
claim theorem instantiates `α := ℝ`.  `numpy`'s square root (used inside
`pandas` `rolling(..).std()`) is threaded through as a parameter `sq : α → α`
and instantiated with `Real.sqrt` in all claim theorems, which keeps the
definitions themselves executable.

NaN: a pandas cell is `Option α`; `none` is NaN.  The two elementwise
divisions of the source (`Bandwidth`, `Pct_B`) produce NaN exactly for the
indeterminate form 0/0; a nonzero numerator over a zero denominator gives
±inf in IEEE arithmetic, which `dropna` does NOT remove, so such a cell is
modelled as a present (`some`) junk value, matching its kept/dropped status.

DataFrame: an association list of named columns (`DFrame`).  Column
assignment `df['X'] = ...` mutates the frame in place: the function
`calculate_bollinger_bands` therefore returns the pair
(caller's frame after the call, returned frame).

Streamlit: `st.*` calls are modelled as an ordered list of `Event`s;
a raised Python exception is `Except.error`.  Chart construction
(`plot_bollinger_bands`'s plotly internals) is out of the spec's scope
(front end) and is abstracted to a single `chart` event; its guard
(`df.empty or 'Upper_Band' not in df.columns`) is kept exactly.
-/

set_option linter.unusedSectionVars false
set_option linter.unusedVariables false

namespace BollingerScan

variable {α : Type} [LinearOrderedField α]

/-- Arithmetic mean of a list, `sum / len` (division by zero gives junk,
guarded by callers). -/
def meanL (l : List α) : α := l.sum / (l.length : α)

/-- Sample variance with `ddof = 1`, as `pandas` `std` squares it:
`Σ (x - mean)^2 / (n - 1)`. -/
def svar (l : List α) : α :=
  (l.map (fun x => (x - meanL l) ^ 2)).sum / ((l.length - 1 : Nat) : α)

/-- The trailing window of length `w` ending at index `i`:
elements `i+1-w .. i` of `xs`. -/
def winSlice (w i : Nat) (xs : List β) : List β := (xs.drop (i + 1 - w)).take w

/-- All values of a window of cells, when none of them is NaN. -/
def sliceVals? (s : List (Option α)) : Option (List α) :=
  if s.all Option.isSome then some s.reduceOption else none

/-- `df['Close'].rolling(window=w).mean()`: at index `i` the mean of the
trailing `w` cells once `i + 1 ≥ w` (the default `min_periods = window`),
NaN before that and NaN whenever the window contains a NaN. -/
def rollingMean (w : Nat) (xs : List (Option α)) : List (Option α) :=
  (List.range xs.length).map (fun i =>
    if w ≤ i + 1 then (sliceVals? (winSlice w i xs)).map meanL else none)

/-- `df['Close'].rolling(window=w).std()`: sample standard deviation
(`ddof = 1`) of the trailing window; additionally NaN for `w = 1`
(0/0 in the `ddof` divisor). -/
def rollingStd (sq : α → α) (w : Nat) (xs : List (Option α)) : List (Option α) :=
  (List.range xs.length).map (fun i =>
    if w ≤ i + 1 ∧ 2 ≤ w then (sliceVals? (winSlice w i xs)).map (fun l => sq (svar l))
    else none)

/-- Elementwise arithmetic on two possibly-NaN cells; NaN propagates. -/
def omap2 (f : α → α → α) : Option α → Option α → Option α
  | some a, some b => some (f a b)
  | _, _ => none

/-- Three-column elementwise zip. -/
def zipWith3 {β γ : Type} (f : β → β → β → γ) : List β → List β → List β → List γ
  | a :: as, b :: bs, c :: cs => f a b c :: zipWith3 f as bs cs
  | _, _, _ => []

/-- One cell of `((Upper - Lower) / Middle) * 100` (source line 69):
NaN iff an input is NaN or the division is the indeterminate 0/0. -/
def bwEntry : Option α → Option α → Option α → Option α
  | some u, some l, some m =>
      if m = 0 ∧ u - l = 0 then none else some ((u - l) / m * 100)
  | _, _, _ => none

/-- One cell of `(Close - Lower) / (Upper - Lower)` (source line 72):
NaN iff an input is NaN or the division is the indeterminate 0/0. -/
def pbEntry : Option α → Option α → Option α → Option α
  | some c, some l, some u =>
      if u - l = 0 ∧ c - l = 0 then none else some ((c - l) / (u - l))
  | _, _, _ => none

/-- A pandas DataFrame: ordered association list of named columns of
possibly-NaN cells. -/
structure DFrame (α : Type) where
  cols : List (String × List (Option α))

namespace DFrame

/-- `df.columns`. -/
def colNames (f : DFrame α) : List String := f.cols.map Prod.fst

/-- `name in df.columns`. -/
def hasCol (f : DFrame α) (n : String) : Bool := f.cols.any (fun c => c.1 == n)

/-- `df[name]` as a column read ( `[]` for a missing name; reads in the
modelled code paths are guarded by `hasCol`). -/
def getCol (f : DFrame α) (n : String) : List (Option α) :=
  match f.cols.find? (fun c => c.1 == n) with
  | some c => c.2
  | none => []

/-- Number of rows, `len(df)`. -/
def nrows (f : DFrame α) : Nat :=
  match f.cols with
  | [] => 0
  | c :: _ => c.2.length

/-- `df.empty`: true when either axis has length zero. -/
def isEmptyDF (f : DFrame α) : Bool := f.cols.isEmpty || f.nrows == 0

/-- `df[name] = v`: overwrite in place when present, else append. -/
def setCol (f : DFrame α) (n : String) (v : List (Option α)) : DFrame α :=
  if f.hasCol n then ⟨f.cols.map (fun c => if c.1 == n then (n, v) else c)⟩
  else ⟨f.cols ++ [(n, v)]⟩

/-- Row `i` has no NaN in any column. -/
def rowOk (f : DFrame α) (i : Nat) : Bool :=
  f.cols.all (fun c => (c.2.getD i none).isSome)

/-- Indices of the rows `dropna()` keeps, in order. -/
def keptRows (f : DFrame α) : List Nat := (List.range f.nrows).filter f.rowOk

/-- `df.dropna()`: keep exactly the rows with no NaN, in order (a copy). -/
def dropna (f : DFrame α) : DFrame α :=
  ⟨f.cols.map (fun c => (c.1, f.keptRows.map (fun i => c.2.getD i none)))⟩

/-- `df.iloc[-1][name]`: KeyError when the column is absent, otherwise the
cell of the last row. -/
def lastCell (f : DFrame α) (n : String) : Except String (Option α) :=
  match f.cols.find? (fun c => c.1 == n) with
  | some c => .ok (c.2.getD (f.nrows - 1) none)
  | none => .error ("KeyError: " ++ n)

end DFrame

/-- The six column assignments of `calculate_bollinger_bands`
(source lines 59-72), threaded through the frame in order, each read
taken from the frame as already mutated. -/
def calcCols (sq : α → α) (df : DFrame α) (w : Nat) (k : α) : DFrame α :=
  let d1 := df.setCol "Middle_Band" (rollingMean w (df.getCol "Close"))
  let d2 := d1.setCol "STD" (rollingStd sq w (d1.getCol "Close"))
  let d3 := d2.setCol "Upper_Band"
    (List.zipWith (omap2 (fun m s => m + s * k)) (d2.getCol "Middle_Band") (d2.getCol "STD"))
  let d4 := d3.setCol "Lower_Band"
    (List.zipWith (omap2 (fun m s => m - s * k)) (d3.getCol "Middle_Band") (d3.getCol "STD"))
  let d5 := d4.setCol "Bandwidth"
    (zipWith3 bwEntry (d4.getCol "Upper_Band") (d4.getCol "Lower_Band") (d4.getCol "Middle_Band"))
  d5.setCol "Pct_B"
    (zipWith3 pbEntry (d5.getCol "Close") (d5.getCol "Lower_Band") (d5.getCol "Upper_Band"))

/-- `calculate_bollinger_bands(df, window, num_std_dev)` (source lines 53-74).
Returns the pair (caller's frame after the call — the in-place mutation —
and the function's return value, `df.dropna()`); when the guard of line 55
fires, both are the untouched input. -/
def calculate_bollinger_bands (sq : α → α) (df : DFrame α) (w : Nat) (k : α) :
    DFrame α × DFrame α :=
  if ¬ df.hasCol "Close" ∨ df.nrows < w then (df, df)
  else (calcCols sq df w k, (calcCols sq df w k).dropna)

/-- The Streamlit calls the modelled flow can emit, in emission order. -/
inductive Event where
  | info (s : String)
  | subheader (s : String)
  | errorFetch (s : String)
  | chart
  | warnPlot
  | warnNotEnough (w : Nat)
  | metricStatus (s : String)
  | table
  deriving DecidableEq, Repr

/-- `get_data` (source lines 44-51): the fetch result, with a raised
exception caught, reported via `st.error`, and turned into an empty frame. -/
def get_data (ticker : String) (fetched : Except String (DFrame α)) :
    DFrame α × List Event :=
  match fetched with
  | .ok d => (d, [])
  | .error e => (⟨[]⟩, [.errorFetch ("Error fetching data for " ++ ticker ++ ": " ++ e)])

/-- `plot_bollinger_bands`'s observable behaviour (source lines 76-149):
its guard emits the insufficient-data warning and returns, otherwise a
chart is drawn (plotly internals abstracted; front end is out of scope). -/
def plotEvents (df : DFrame α) : List Event :=
  if df.isEmptyDF || !(df.hasCol "Upper_Band") then [.warnPlot] else [.chart]

/-- `a > b` on possibly-NaN scalars: any comparison with NaN is False. -/
def ogt (a b : Option α) : Bool :=
  match a, b with
  | some x, some y => decide (y < x)
  | _, _ => false

/-- The signal-status classification of source lines 227-238:
`Close > Upper_Band` → Overbought, else `Close < Lower_Band` → Oversold,
else Neutral. -/
def classifyLatest (c u l : Option α) : String :=
  if ogt c u then "Overbought (Price above Upper Band)"
  else if ogt l c then "Oversold (Price below Lower Band)"
  else "Neutral"

/-- Source lines 224-254: read the cells of `df_bb.iloc[-1]` in source
order (a missing column raises KeyError), classify, and emit the metric
row and the tail table.  The source reads `Close`, `Upper_Band`,
`Lower_Band` several times (lines 227-228 and 243-249); the reads are
pure, so each name is read once here — the first KeyError in source
order is the same (`Close`, then `Upper_Band`, then `Lower_Band`,
then `Bandwidth`). -/
def latestBlock (df : DFrame α) : Except String (List Event) :=
  match df.lastCell "Close" with
  | .error e => .error e
  | .ok c =>
    match df.lastCell "Upper_Band" with
    | .error e => .error e
    | .ok u =>
      match df.lastCell "Lower_Band" with
      | .error e => .error e
      | .ok l =>
        match df.lastCell "Bandwidth" with
        | .error e => .error e
        | .ok _ => .ok [Event.metricStatus (classifyLatest c u l), Event.table]

/-- `main`'s per-run flow (source lines 206-260) for a fixed ticker,
window and multiplier, given the outcome of the external fetch.
Result: the events emitted, and `.error` when an exception escapes. -/
def mainModel (sq : α → α) (ticker : String) (w : Nat) (k : α)
    (fetched : Except String (DFrame α)) : List Event × Except String Unit :=
  if ticker == "" then
    ([.info "Please enter a stock ticker symbol to begin the analysis."], .ok ())
  else
    let pre := [Event.subheader ("Analysis for: " ++ ticker)]
    let gd := get_data ticker fetched
    if gd.1.isEmptyDF then (pre ++ gd.2, .ok ())
    else
      let df_bb := (calculate_bollinger_bands sq gd.1 w k).2
      if df_bb.isEmptyDF then (pre ++ gd.2 ++ [.warnNotEnough w], .ok ())
      else
        match latestBlock df_bb with
        | .ok evs => (pre ++ gd.2 ++ plotEvents df_bb ++ evs, .ok ())
        | .error e => (pre ++ gd.2 ++ plotEvents df_bb, .error e)

/-- A freshly fetched price series as a frame: its `Close` column.
(The other yfinance columns feed only the plotting front end, which the
spec excludes; they are all-present cells and do not affect `dropna`.) -/
def ofCloses (closes : List α) : DFrame α := ⟨[("Close", closes.map some)]⟩

/-- The `Upper_Band` column as a function of the `Close` cells. -/
def upCol (sq : α → α) (w : Nat) (k : α) (cs : List (Option α)) : List (Option α) :=
  List.zipWith (omap2 (fun m s => m + s * k)) (rollingMean w cs) (rollingStd sq w cs)

/-- The `Lower_Band` column as a function of the `Close` cells. -/
def loCol (sq : α → α) (w : Nat) (k : α) (cs : List (Option α)) : List (Option α) :=
  List.zipWith (omap2 (fun m s => m - s * k)) (rollingMean w cs) (rollingStd sq w cs)

/-- The `Bandwidth` column as a function of the `Close` cells. -/
def bwCol (sq : α → α) (w : Nat) (k : α) (cs : List (Option α)) : List (Option α) :=
  zipWith3 bwEntry (upCol sq w k cs) (loCol sq w k cs) (rollingMean w cs)

/-- The `Pct_B` column as a function of the `Close` cells. -/
def pbCol (sq : α → α) (w : Nat) (k : α) (cs : List (Option α)) : List (Option α) :=
  zipWith3 pbEntry cs (loCol sq w k cs) (upCol sq w k cs)

/-- Spec-side trailing window `close[i-window+1..i]` by explicit indexing. -/
def specWindow (w i : Nat) (closes : List α) : List α :=
  (List.range w).map (fun j => closes.getD (i + 1 - w + j) 0)

/-- Spec-side `middle[i] = mean(close[i-window+1..i])`. -/
def specMean (w i : Nat) (closes : List α) : α :=
  (specWindow w i closes).sum / (w : α)

/-- Spec-side sample variance (`ddof = 1`) over the same trailing window. -/
def specSVar (w i : Nat) (closes : List α) : α :=
  ((specWindow w i closes).map (fun x => (x - specMean w i closes) ^ 2)).sum
    / ((w - 1 : Nat) : α)

/-- The names of the six columns `calculate_bollinger_bands` assigns,
in assignment order. -/
def newCols : List String :=
  ["Middle_Band", "STD", "Upper_Band", "Lower_Band", "Bandwidth", "Pct_B"]

/-- A 21-close series: twenty identical closes, then a jump. -/
def constPlusJump : List ℝ := List.replicate 20 100 ++ [105]

/-- A 10-close series whose last close sits between the 0.95-quantile of
the band and the upper band: trailing mean 100, sample variance 100
(hence std 10), bands [80, 120], last close 119, %B = 0.975. -/
def nearSellCloses : List ℝ := [100, 100, 100, 100, 100, 100, 103, 101, 77, 119]

/-! ### Helper lemmas: list access -/

lemma getD_map_range {β : Type} (f : Nat → β) (d : β) {i n : Nat} (h : i < n) :
    ((List.range n).map f).getD i d = f i := by
  rw [List.getD_eq_getElem _ _ (by simpa using h)]
  simp

lemma getD_map_range_of_ge {β : Type} (f : Nat → β) (d : β) {i n : Nat} (h : n ≤ i) :
    ((List.range n).map f).getD i d = d := by
  apply List.getD_eq_default
  simpa using h

lemma getD_map_some {i : Nat} (closes : List α) (h : i < closes.length) :
    (closes.map some).getD i none = some (closes.getD i 0) := by
  rw [List.getD_eq_getElem _ _ (by simpa using h), List.getD_eq_getElem _ _ h]
  simp

lemma getD_zipWith {β₁ β₂ γ : Type} (f : β₁ → β₂ → γ) (as : List β₁) (bs : List β₂)
    (d₁ : β₁) (d₂ : β₂) (d₃ : γ) {i : Nat} (h1 : i < as.length) (h2 : i < bs.length) :
    (List.zipWith f as bs).getD i d₃ = f (as.getD i d₁) (bs.getD i d₂) := by
  rw [List.getD_eq_getElem _ _ (by simp; omega), List.getD_eq_getElem _ _ h1,
    List.getD_eq_getElem _ _ h2]
  simp

lemma length_zipWith3 {β γ : Type} (f : β → β → β → γ) :
    ∀ (as bs cs : List β),
      (zipWith3 f as bs cs).length = min as.length (min bs.length cs.length)
  | [], _, _ => by simp [zipWith3]
  | _ :: _, [], _ => by simp [zipWith3]
  | _ :: _, _ :: _, [] => by simp [zipWith3]
  | a :: as, b :: bs, c :: cs => by
    simp [zipWith3, length_zipWith3 f as bs cs]
    omega

lemma getD_zipWith3 {β γ : Type} (f : β → β → β → γ) (d : β) (e : γ) :
    ∀ (as bs cs : List β) (i : Nat), i < as.length → i < bs.length → i < cs.length →
      (zipWith3 f as bs cs).getD i e = f (as.getD i d) (bs.getD i d) (cs.getD i d)
  | a :: as, b :: bs, c :: cs, 0, _, _, _ => by simp [zipWith3]
  | a :: as, b :: bs, c :: cs, i + 1, h1, h2, h3 => by
    simpa [zipWith3] using
      getD_zipWith3 f d e as bs cs i (by simpa using h1) (by simpa using h2)
        (by simpa using h3)

/-! ### Helper lemmas: rolling windows -/

lemma length_rollingMean (w : Nat) (xs : List (Option α)) :
    (rollingMean w xs).length = xs.length := by
  simp [rollingMean]

lemma length_rollingStd (sq : α → α) (w : Nat) (xs : List (Option α)) :
    (rollingStd sq w xs).length = xs.length := by
  simp [rollingStd]

lemma rollingMean_getD (w : Nat) (xs : List (Option α)) {i : Nat} (h : i < xs.length) :
    (rollingMean w xs).getD i none
      = if w ≤ i + 1 then (sliceVals? (winSlice w i xs)).map meanL else none := by
  unfold rollingMean
  exact getD_map_range _ _ h

lemma rollingStd_getD (sq : α → α) (w : Nat) (xs : List (Option α)) {i : Nat}
    (h : i < xs.length) :
    (rollingStd sq w xs).getD i none
      = if w ≤ i + 1 ∧ 2 ≤ w then (sliceVals? (winSlice w i xs)).map (fun l => sq (svar l))
        else none := by
  unfold rollingStd
  exact getD_map_range _ _ h

lemma winSlice_map {β γ : Type} (g : β → γ) (w i : Nat) (xs : List β) :
    winSlice w i (xs.map g) = (winSlice w i xs).map g := by
  simp [winSlice]

lemma sliceVals?_map_some (l : List α) : sliceVals? (l.map some) = some l := by
  have h : ∀ l' : List α, (l'.map some).reduceOption = l' := by
    intro l'
    induction l' with
    | nil => simp
    | cons a t ih => simp [List.reduceOption_cons_of_some, ih]
  simp [sliceVals?, h]

lemma length_winSlice {β : Type} {w i : Nat} (xs : List β) (h1 : i < xs.length)
    (h2 : w ≤ i + 1) : (winSlice w i xs).length = w := by
  simp [winSlice]
  omega

lemma length_specWindow (w i : Nat) (closes : List α) :
    (specWindow w i closes).length = w := by
  simp [specWindow]

lemma winSlice_eq_specWindow {w i : Nat} (closes : List α) (h1 : i < closes.length)
    (h2 : w ≤ i + 1) : winSlice w i closes = specWindow w i closes := by
  apply List.ext_getElem
  · rw [length_winSlice closes h1 h2, length_specWindow]
  · intro j hj hj'
    have hjw : j < w := by simpa [length_specWindow] using hj'
    have hb : i + 1 - w + j < closes.length := by omega
    simp only [winSlice, specWindow, List.getElem_take, List.getElem_drop,
      List.getElem_map, List.getElem_range]
    rw [List.getD_eq_getElem _ _ hb]

lemma getD_mem_winSlice {w i : Nat} (closes : List α) (h1 : i < closes.length)
    (h2 : w ≤ i + 1) (h3 : 1 ≤ w) : closes.getD i 0 ∈ winSlice w i closes := by
  rw [winSlice_eq_specWindow closes h1 h2]
  have : closes.getD i 0 = closes.getD (i + 1 - w + (w - 1)) 0 := by
    congr 1
    omega
  rw [this]
  exact List.mem_map.mpr ⟨w - 1, by simp; omega, rfl⟩

/-! ### Helper lemmas: the sample variance -/

lemma svar_nonneg (l : List α) : 0 ≤ svar l := by
  apply div_nonneg _ (Nat.cast_nonneg _)
  apply List.sum_nonneg
  intro x hx
  obtain ⟨y, _, rfl⟩ := List.mem_map.mp hx
  exact sq_nonneg _

lemma sum_sq_eq_zero_iff (l : List α) (m : α) :
    ((l.map (fun x => (x - m) ^ 2)).sum = 0) ↔ ∀ x ∈ l, x = m := by
  induction l with
  | nil => simp
  | cons a t ih =>
    simp only [List.map_cons, List.sum_cons, List.mem_cons]
    constructor
    · intro h
      have hs : 0 ≤ (t.map (fun x => (x - m) ^ 2)).sum := by
        apply List.sum_nonneg
        intro x hx
        obtain ⟨y, _, rfl⟩ := List.mem_map.mp hx
        exact sq_nonneg _
      have ha : (a - m) ^ 2 = 0 := le_antisymm (by linarith [sq_nonneg (a - m)]) (sq_nonneg _)
      have ht : (t.map (fun x => (x - m) ^ 2)).sum = 0 := by linarith [sq_nonneg (a - m)]
      intro x hx
      rcases hx with rfl | hx
      · have := pow_eq_zero_iff (n := 2) (by norm_num) |>.mp ha
        linarith [sub_eq_zero.mp this]
      · exact ih.mp ht x hx
    · rintro h
      have ha : a = m := h a (Or.inl rfl)
      have ht : (t.map (fun x => (x - m) ^ 2)).sum = 0 := ih.mpr fun x hx => h x (Or.inr hx)
      simp [ha, ht]

lemma svar_eq_zero_iff (l : List α) (h : 2 ≤ l.length) :
    svar l = 0 ↔ ∀ x ∈ l, x = meanL l := by
  unfold svar
  rw [div_eq_zero_iff]
  have hden : ((l.length - 1 : Nat) : α) ≠ 0 := Nat.cast_ne_zero.mpr (by omega)
  simp [hden, sum_sq_eq_zero_iff]

lemma meanL_replicate {n : Nat} (c : α) (h : 0 < n) : meanL (List.replicate n c) = c := by
  have hn : ((n : α)) ≠ 0 := Nat.cast_ne_zero.mpr (by omega)
  rw [meanL, List.sum_replicate, List.length_replicate, nsmul_eq_mul,
    mul_div_cancel_left₀ _ hn]

lemma svar_replicate (n : Nat) (c : α) : svar (List.replicate n c) = 0 := by
  cases n with
  | zero => simp [svar]
  | succ m =>
    have hm : meanL (List.replicate (m + 1) c) = c := meanL_replicate c (Nat.succ_pos m)
    simp [svar, hm, List.map_replicate, List.sum_replicate]

/-! ### Helper lemmas: frames -/

namespace DFrame

lemma hasCol_iff_mem (f : DFrame α) (n : String) :
    f.hasCol n = true ↔ n ∈ f.colNames := by
  simp [hasCol, colNames, List.any_eq_true]

lemma setCol_of_not_hasCol (f : DFrame α) {n : String} (v : List (Option α))
    (h : f.hasCol n = false) : f.setCol n v = ⟨f.cols ++ [(n, v)]⟩ := by
  simp [setCol, h]

lemma colNames_mk_append (cols : List (String × List (Option α))) (n : String)
    (v : List (Option α)) :
    (DFrame.mk (cols ++ [(n, v)]) : DFrame α).colNames
      = (DFrame.mk cols : DFrame α).colNames ++ [n] := by
  simp [colNames]

lemma getCol_mk_append_of_hasCol (f : DFrame α) {m : String}
    (h : f.hasCol m = true) (n : String) (v : List (Option α)) :
    (DFrame.mk (f.cols ++ [(n, v)]) : DFrame α).getCol m = f.getCol m := by
  simp only [hasCol, List.any_eq_true] at h
  obtain ⟨c, hc, he⟩ := h
  have hfind : f.cols.find? (fun c => c.1 == m) |>.isSome := by
    rw [List.find?_isSome]
    exact ⟨c, hc, he⟩
  simp only [getCol, List.find?_append]
  obtain ⟨c', hc'⟩ := Option.isSome_iff_exists.mp hfind
  simp [hc']

lemma find?_eq_none_of_not_hasCol (f : DFrame α) {n : String} (h : f.hasCol n = false) :
    f.cols.find? (fun c => c.1 == n) = none := by
  rw [List.find?_eq_none]
  intro c hc
  simp only [hasCol] at h
  exact List.any_eq_false.mp h c hc

lemma getCol_mk_append_self (f : DFrame α) {n : String} (h : f.hasCol n = false)
    (v : List (Option α)) :
    (DFrame.mk (f.cols ++ [(n, v)]) : DFrame α).getCol n = v := by
  simp [getCol, List.find?_append, find?_eq_none_of_not_hasCol f h]

lemma hasCol_mk_append (f : DFrame α) (n m : String) (v : List (Option α)) :
    (DFrame.mk (f.cols ++ [(n, v)]) : DFrame α).hasCol m
      = (f.hasCol m || (n == m)) := by
  simp [hasCol, List.any_append]

lemma nrows_mk_append (f : DFrame α) (h : f.cols ≠ []) (n : String)
    (v : List (Option α)) :
    (DFrame.mk (f.cols ++ [(n, v)]) : DFrame α).nrows = f.nrows := by
  cases hc : f.cols with
  | nil => exact absurd hc h
  | cons c t => simp [nrows, hc]

lemma getCol_dropna (f : DFrame α) {n : String} (h : f.hasCol n = true) :
    f.dropna.getCol n = f.keptRows.map (fun i => (f.getCol n).getD i none) := by
  simp only [hasCol, List.any_eq_true] at h
  obtain ⟨c, hc, he⟩ := h
  have hfind : (f.cols.find? (fun c => c.1 == n)).isSome := by
    rw [List.find?_isSome]
    exact ⟨c, hc, he⟩
  obtain ⟨c', hc'⟩ := Option.isSome_iff_exists.mp hfind
  simp only [dropna, getCol, List.find?_map]
  have : ((fun c : String × List (Option α) => c.1 == n) ∘
      fun c => (c.1, f.keptRows.map fun i => c.2.getD i none))
      = fun c : String × List (Option α) => c.1 == n := rfl
  rw [this, hc']
  simp [getCol, hc']

lemma nrows_dropna (f : DFrame α) : f.dropna.nrows = if f.cols = [] then 0 else f.keptRows.length := by
  cases hc : f.cols with
  | nil => simp [dropna, nrows, hc]
  | cons c t => simp [dropna, nrows, hc]

end DFrame

/-- The frame built by the six column assignments on a bare price series,
written out: used to read off single columns. -/
lemma calcCols_ofCloses (sq : α → α) (closes : List α) (w : Nat) (k : α) :
    calcCols sq (ofCloses closes) w k =
      ⟨[("Close", closes.map some),
        ("Middle_Band", rollingMean w (closes.map some)),
        ("STD", rollingStd sq w (closes.map some)),
        ("Upper_Band", upCol sq w k (closes.map some)),
        ("Lower_Band", loCol sq w k (closes.map some)),
        ("Bandwidth", bwCol sq w k (closes.map some)),
        ("Pct_B", pbCol sq w k (closes.map some))]⟩ := rfl

lemma getCol_calc_close (sq : α → α) (closes : List α) (w : Nat) (k : α) :
    (calcCols sq (ofCloses closes) w k).getCol "Close" = closes.map some := by
  rw [calcCols_ofCloses]
  rfl

lemma getCol_calc_mid (sq : α → α) (closes : List α) (w : Nat) (k : α) :
    (calcCols sq (ofCloses closes) w k).getCol "Middle_Band"
      = rollingMean w (closes.map some) := by
  rw [calcCols_ofCloses]
  rfl

lemma getCol_calc_std (sq : α → α) (closes : List α) (w : Nat) (k : α) :
    (calcCols sq (ofCloses closes) w k).getCol "STD"
      = rollingStd sq w (closes.map some) := by
  rw [calcCols_ofCloses]
  rfl

lemma getCol_calc_up (sq : α → α) (closes : List α) (w : Nat) (k : α) :
    (calcCols sq (ofCloses closes) w k).getCol "Upper_Band"
      = upCol sq w k (closes.map some) := by
  rw [calcCols_ofCloses]
  rfl

lemma getCol_calc_lo (sq : α → α) (closes : List α) (w : Nat) (k : α) :
    (calcCols sq (ofCloses closes) w k).getCol "Lower_Band"
      = loCol sq w k (closes.map some) := by
  rw [calcCols_ofCloses]
  rfl

lemma getCol_calc_bw (sq : α → α) (closes : List α) (w : Nat) (k : α) :
    (calcCols sq (ofCloses closes) w k).getCol "Bandwidth"
      = bwCol sq w k (closes.map some) := by
  rw [calcCols_ofCloses]
  rfl

lemma getCol_calc_pb (sq : α → α) (closes : List α) (w : Nat) (k : α) :
    (calcCols sq (ofCloses closes) w k).getCol "Pct_B"
      = pbCol sq w k (closes.map some) := by
  rw [calcCols_ofCloses]
  rfl

/-! ### Helper lemmas: the cell values of the computed columns -/

lemma length_upCol (sq : α → α) (w : Nat) (k : α) (cs : List (Option α)) :
    (upCol sq w k cs).length = cs.length := by
  simp [upCol, length_rollingMean, length_rollingStd]

lemma length_loCol (sq : α → α) (w : Nat) (k : α) (cs : List (Option α)) :
    (loCol sq w k cs).length = cs.length := by
  simp [loCol, length_rollingMean, length_rollingStd]

lemma midCell (w : Nat) (closes : List α) {i : Nat} (h1 : i < closes.length)
    (h2 : w ≤ i + 1) :
    (rollingMean w (closes.map some)).getD i none
      = some (meanL (winSlice w i closes)) := by
  rw [rollingMean_getD w _ (by simpa using h1), if_pos h2, winSlice_map,
    sliceVals?_map_some]
  rfl

lemma midCell_none (w : Nat) (closes : List α) {i : Nat} (h1 : i < closes.length)
    (h2 : ¬ w ≤ i + 1) :
    (rollingMean w (closes.map some)).getD i none = none := by
  rw [rollingMean_getD w _ (by simpa using h1), if_neg h2]

lemma stdCell (sq : α → α) (w : Nat) (closes : List α) {i : Nat}
    (h1 : i < closes.length) (h2 : w ≤ i + 1) (h3 : 2 ≤ w) :
    (rollingStd sq w (closes.map some)).getD i none
      = some (sq (svar (winSlice w i closes))) := by
  rw [rollingStd_getD sq w _ (by simpa using h1), if_pos ⟨h2, h3⟩, winSlice_map,
    sliceVals?_map_some]
  rfl

lemma upCell (sq : α → α) (w : Nat) (k : α) (closes : List α) {i : Nat}
    (h1 : i < closes.length) (h2 : w ≤ i + 1) (h3 : 2 ≤ w) :
    (upCol sq w k (closes.map some)).getD i none
      = some (meanL (winSlice w i closes) + sq (svar (winSlice w i closes)) * k) := by
  unfold upCol
  rw [getD_zipWith _ _ _ none none none (by simpa [length_rollingMean] using h1)
    (by simpa [length_rollingStd] using h1), midCell w closes h1 h2,
    stdCell sq w closes h1 h2 h3]
  rfl

lemma loCell (sq : α → α) (w : Nat) (k : α) (closes : List α) {i : Nat}
    (h1 : i < closes.length) (h2 : w ≤ i + 1) (h3 : 2 ≤ w) :
    (loCol sq w k (closes.map some)).getD i none
      = some (meanL (winSlice w i closes) - sq (svar (winSlice w i closes)) * k) := by
  unfold loCol
  rw [getD_zipWith _ _ _ none none none (by simpa [length_rollingMean] using h1)
    (by simpa [length_rollingStd] using h1), midCell w closes h1 h2,
    stdCell sq w closes h1 h2 h3]
  rfl

lemma bwCell (sq : α → α) (w : Nat) (k : α) (closes : List α) {i : Nat}
    (h1 : i < closes.length) (h2 : w ≤ i + 1) (h3 : 2 ≤ w) :
    (bwCol sq w k (closes.map some)).getD i none
      = bwEntry (some (meanL (winSlice w i closes) + sq (svar (winSlice w i closes)) * k))
          (some (meanL (winSlice w i closes) - sq (svar (winSlice w i closes)) * k))
          (some (meanL (winSlice w i closes))) := by
  unfold bwCol
  rw [getD_zipWith3 _ none none _ _ _ _ (by simpa [length_upCol] using h1)
    (by simpa [length_loCol] using h1) (by simpa [length_rollingMean] using h1),
    upCell sq w k closes h1 h2 h3, loCell sq w k closes h1 h2 h3, midCell w closes h1 h2]

lemma pbCell (sq : α → α) (w : Nat) (k : α) (closes : List α) {i : Nat}
    (h1 : i < closes.length) (h2 : w ≤ i + 1) (h3 : 2 ≤ w) :
    (pbCol sq w k (closes.map some)).getD i none
      = pbEntry (some (closes.getD i 0))
          (some (meanL (winSlice w i closes) - sq (svar (winSlice w i closes)) * k))
          (some (meanL (winSlice w i closes) + sq (svar (winSlice w i closes)) * k)) := by
  unfold pbCol
  rw [getD_zipWith3 _ none none _ _ _ _ (by simpa using h1)
    (by simpa [length_loCol] using h1) (by simpa [length_upCol] using h1),
    upCell sq w k closes h1 h2 h3, loCell sq w k closes h1 h2 h3, getD_map_some closes h1]

/-! ### The kept-row characterisation (over the reals, with the true
square root): a row of the computed frame survives `dropna` exactly when
it has full trailing history AND the trailing sample variance is nonzero
(the zero-variance rows die of `Pct_B = 0/0 = NaN`). -/

lemma rowOk_calcCols_iff (closes : List ℝ) (w : Nat) (k : ℝ) (hw : 2 ≤ w) (hk : 0 < k)
    {i : Nat} (hi : i < closes.length) :
    ((calcCols Real.sqrt (ofCloses closes) w k).rowOk i = true)
      ↔ (w ≤ i + 1 ∧ svar (winSlice w i closes) ≠ 0) := by
  rw [calcCols_ofCloses]
  by_cases h2 : w ≤ i + 1
  · have hcs := getD_map_some closes hi
    have hmid := midCell w closes hi h2
    have hstd := stdCell Real.sqrt w closes hi h2 hw
    have hup := upCell Real.sqrt w k closes hi h2 hw
    have hlo := loCell Real.sqrt w k closes hi h2 hw
    have hbw := bwCell Real.sqrt w k closes hi h2 hw
    have hpb := pbCell Real.sqrt w k closes hi h2 hw
    simp only [DFrame.rowOk, List.all_cons, List.all_nil, hcs, hmid, hstd, hup, hlo,
      hbw, hpb, Option.isSome_some, Bool.true_and, Bool.and_true]
    by_cases hv : svar (winSlice w i closes) = 0
    · have hs : Real.sqrt (svar (winSlice w i closes)) = 0 := by
        rw [hv, Real.sqrt_zero]
      have hlen : (winSlice w i closes).length = w := length_winSlice closes hi h2
      have hcm : closes.getD i 0 = meanL (winSlice w i closes) :=
        (svar_eq_zero_iff _ (by omega)).mp hv _ (getD_mem_winSlice closes hi h2 (by omega))
      have hpbnone : pbEntry (some (closes.getD i 0))
          (some (meanL (winSlice w i closes) - Real.sqrt (svar (winSlice w i closes)) * k))
          (some (meanL (winSlice w i closes) + Real.sqrt (svar (winSlice w i closes)) * k))
          = (none : Option ℝ) := by
        simp only [pbEntry]
        rw [if_pos]
        exact ⟨by rw [hs]; ring, by rw [hs, hcm]; ring⟩
      rw [hpbnone]
      simp [hv]
    · have hpos : 0 < svar (winSlice w i closes) :=
        lt_of_le_of_ne (svar_nonneg _) (Ne.symm hv)
      have hs : 0 < Real.sqrt (svar (winSlice w i closes)) := Real.sqrt_pos.mpr hpos
      have hul : (meanL (winSlice w i closes) + Real.sqrt (svar (winSlice w i closes)) * k)
          - (meanL (winSlice w i closes) - Real.sqrt (svar (winSlice w i closes)) * k) ≠ 0 := by
        have hsk : 0 < Real.sqrt (svar (winSlice w i closes)) * k := mul_pos hs hk
        intro hcon
        nlinarith
      have hbwsome : (bwEntry
          (some (meanL (winSlice w i closes) + Real.sqrt (svar (winSlice w i closes)) * k))
          (some (meanL (winSlice w i closes) - Real.sqrt (svar (winSlice w i closes)) * k))
          (some (meanL (winSlice w i closes))) : Option ℝ).isSome = true := by
        simp only [bwEntry]
        rw [if_neg (fun hcon => hul hcon.2)]
        rfl
      have hpbsome : (pbEntry (some (closes.getD i 0))
          (some (meanL (winSlice w i closes) - Real.sqrt (svar (winSlice w i closes)) * k))
          (some (meanL (winSlice w i closes) + Real.sqrt (svar (winSlice w i closes)) * k))
          : Option ℝ).isSome = true := by
        simp only [pbEntry]
        rw [if_neg (fun hcon => hul hcon.1)]
        rfl
      rw [hbwsome, hpbsome]
      simp [h2, hv]
  · have hmid := midCell_none w closes hi h2
    simp only [DFrame.rowOk, List.all_cons, List.all_nil]
    rw [hmid]
    simp [h2]

/-! ### Helper lemmas: spec-side values and missing cells -/

lemma meanL_specWindow (w i : Nat) (closes : List α) :
    meanL (specWindow w i closes) = specMean w i closes := by
  rw [meanL, length_specWindow]
  rfl

lemma meanL_winSlice {w i : Nat} (closes : List α) (h1 : i < closes.length)
    (h2 : w ≤ i + 1) : meanL (winSlice w i closes) = specMean w i closes := by
  rw [winSlice_eq_specWindow closes h1 h2, meanL_specWindow]

lemma svar_winSlice {w i : Nat} (closes : List α) (h1 : i < closes.length)
    (h2 : w ≤ i + 1) : svar (winSlice w i closes) = specSVar w i closes := by
  rw [svar, winSlice_eq_specWindow closes h1 h2, meanL_specWindow, length_specWindow]
  rfl

lemma stdCell_none (sq : α → α) (w : Nat) (closes : List α) {i : Nat}
    (h1 : i < closes.length) (h2 : ¬ w ≤ i + 1) :
    (rollingStd sq w (closes.map some)).getD i none = none := by
  rw [rollingStd_getD sq w _ (by simpa using h1), if_neg (fun hc => h2 hc.1)]

lemma upCell_none (sq : α → α) (w : Nat) (k : α) (closes : List α) {i : Nat}
    (h1 : i < closes.length) (h2 : ¬ w ≤ i + 1) :
    (upCol sq w k (closes.map some)).getD i none = none := by
  unfold upCol
  rw [getD_zipWith _ _ _ none none none (by simpa [length_rollingMean] using h1)
    (by simpa [length_rollingStd] using h1), midCell_none w closes h1 h2]
  rfl

lemma loCell_none (sq : α → α) (w : Nat) (k : α) (closes : List α) {i : Nat}
    (h1 : i < closes.length) (h2 : ¬ w ≤ i + 1) :
    (loCol sq w k (closes.map some)).getD i none = none := by
  unfold loCol
  rw [getD_zipWith _ _ _ none none none (by simpa [length_rollingMean] using h1)
    (by simpa [length_rollingStd] using h1), midCell_none w closes h1 h2]
  rfl

lemma bwCell_none (sq : α → α) (w : Nat) (k : α) (closes : List α) {i : Nat}
    (h1 : i < closes.length) (h2 : ¬ w ≤ i + 1) :
    (bwCol sq w k (closes.map some)).getD i none = none := by
  unfold bwCol
  rw [getD_zipWith3 _ none none _ _ _ _ (by simpa [length_upCol] using h1)
    (by simpa [length_loCol] using h1) (by simpa [length_rollingMean] using h1),
    upCell_none sq w k closes h1 h2]
  rfl

lemma pbCell_none (sq : α → α) (w : Nat) (k : α) (closes : List α) {i : Nat}
    (h1 : i < closes.length) (h2 : ¬ w ≤ i + 1) :
    (pbCol sq w k (closes.map some)).getD i none = none := by
  unfold pbCol
  rw [getD_zipWith3 _ none none _ _ _ _ (by simpa using h1)
    (by simpa [length_loCol] using h1) (by simpa [length_upCol] using h1),
    loCell_none sq w k closes h1 h2, getD_map_some closes h1]
  rfl

lemma winSlice_eq_of_take_eq {β : Type} {i w : Nat} (xs ys : List β)
    (h : xs.take (i + 1) = ys.take (i + 1)) (h2 : w ≤ i + 1) :
    winSlice w i xs = winSlice w i ys := by
  have harith : i + 1 - (i + 1 - w) = w := by omega
  have e : ∀ zs : List β, winSlice w i zs = ((zs.take (i + 1)).drop (i + 1 - w)).take w := by
    intro zs
    rw [List.drop_take, harith, List.take_take, min_self]
    rfl
  rw [e xs, e ys, h]

lemma getD_eq_of_take_eq {β : Type} {i : Nat} (xs ys : List β) (d : β)
    (h : xs.take (i + 1) = ys.take (i + 1)) : xs.getD i d = ys.getD i d := by
  have e : ∀ zs : List β, zs.getD i d = ((zs.take (i + 1))[i]?).getD d := by
    intro zs
    rw [List.getElem?_take_of_lt (Nat.lt_succ_self i), List.getD_eq_getElem?_getD]
  rw [e xs, e ys, h]

/-! ### Helper lemmas: appending fresh columns (the in-place mutation) -/

lemma hasCol_mk_append_list (f : DFrame α) (l : List (String × List (Option α)))
    (n : String) :
    (DFrame.mk (f.cols ++ l) : DFrame α).hasCol n
      = (f.hasCol n || l.any (fun c => c.1 == n)) := by
  simp [DFrame.hasCol, List.any_append]

lemma setCol_fresh_step (df g : DFrame α) (ns : List String) (n : String)
    (v : List (Option α))
    (hcn : g.colNames = df.colNames ++ ns)
    (hhc : ∀ m, g.hasCol m = (df.hasCol m || ns.any (fun s => s == m)))
    (hgc : ∀ m, df.hasCol m = true → g.getCol m = df.getCol m)
    (hfn : df.hasCol n = false) (hnn : ns.any (fun s => s == n) = false) :
    (g.setCol n v).colNames = df.colNames ++ (ns ++ [n])
    ∧ (∀ m, (g.setCol n v).hasCol m = (df.hasCol m || (ns ++ [n]).any (fun s => s == m)))
    ∧ (∀ m, df.hasCol m = true → (g.setCol n v).getCol m = df.getCol m) := by
  have hg_n : g.hasCol n = false := by
    rw [hhc n, hfn, hnn]
    rfl
  have he := DFrame.setCol_of_not_hasCol g v hg_n
  refine ⟨?_, ?_, ?_⟩
  · rw [he]
    show (DFrame.mk (g.cols ++ [(n, v)]) : DFrame α).colNames = _
    rw [DFrame.colNames_mk_append, hcn, List.append_assoc]
  · intro m
    rw [he, DFrame.hasCol_mk_append, hhc m, List.any_append]
    simp [Bool.or_assoc]
  · intro m hm
    have hgm : g.hasCol m = true := by
      rw [hhc m, hm]
      rfl
    rw [he, DFrame.getCol_mk_append_of_hasCol g hgm, hgc m hm]

lemma calcCols_fresh_cols (sq : α → α) (df : DFrame α) (w : Nat) (k : α)
    (hfresh : ∀ n ∈ newCols, df.hasCol n = false) :
    (calcCols sq df w k).colNames = df.colNames ++ newCols
    ∧ ∀ m, df.hasCol m = true → (calcCols sq df w k).getCol m = df.getCol m := by
  have hMB : df.hasCol "Middle_Band" = false := hfresh _ (by simp [newCols])
  have hSTD : df.hasCol "STD" = false := hfresh _ (by simp [newCols])
  have hUB : df.hasCol "Upper_Band" = false := hfresh _ (by simp [newCols])
  have hLB : df.hasCol "Lower_Band" = false := hfresh _ (by simp [newCols])
  have hBW : df.hasCol "Bandwidth" = false := hfresh _ (by simp [newCols])
  have hPB : df.hasCol "Pct_B" = false := hfresh _ (by simp [newCols])
  set d1 := df.setCol "Middle_Band" (rollingMean w (df.getCol "Close")) with hd1
  set d2 := d1.setCol "STD" (rollingStd sq w (d1.getCol "Close")) with hd2
  set d3 := d2.setCol "Upper_Band" (List.zipWith (omap2 (fun m s => m + s * k))
    (d2.getCol "Middle_Band") (d2.getCol "STD")) with hd3
  set d4 := d3.setCol "Lower_Band" (List.zipWith (omap2 (fun m s => m - s * k))
    (d3.getCol "Middle_Band") (d3.getCol "STD")) with hd4
  set d5 := d4.setCol "Bandwidth" (zipWith3 bwEntry (d4.getCol "Upper_Band")
    (d4.getCol "Lower_Band") (d4.getCol "Middle_Band")) with hd5
  have s1 := setCol_fresh_step df df [] "Middle_Band" (rollingMean w (df.getCol "Close"))
    (by simp) (by simp) (fun _ _ => rfl) hMB (by simp)
  have s2 := setCol_fresh_step df d1 ["Middle_Band"] "STD"
    (rollingStd sq w (d1.getCol "Close"))
    (by simpa using s1.1) (by intro m; simpa using s1.2.1 m) s1.2.2 hSTD (by decide)
  have s3 := setCol_fresh_step df d2 ["Middle_Band", "STD"] "Upper_Band"
    (List.zipWith (omap2 (fun m s => m + s * k)) (d2.getCol "Middle_Band") (d2.getCol "STD"))
    (by simpa using s2.1) (by intro m; simpa using s2.2.1 m) s2.2.2 hUB (by decide)
  have s4 := setCol_fresh_step df d3 ["Middle_Band", "STD", "Upper_Band"] "Lower_Band"
    (List.zipWith (omap2 (fun m s => m - s * k)) (d3.getCol "Middle_Band") (d3.getCol "STD"))
    (by simpa using s3.1) (by intro m; simpa using s3.2.1 m) s3.2.2 hLB (by decide)
  have s5 := setCol_fresh_step df d4 ["Middle_Band", "STD", "Upper_Band", "Lower_Band"]
    "Bandwidth"
    (zipWith3 bwEntry (d4.getCol "Upper_Band") (d4.getCol "Lower_Band") (d4.getCol "Middle_Band"))
    (by simpa using s4.1) (by intro m; simpa using s4.2.1 m) s4.2.2 hBW (by decide)
  have s6 := setCol_fresh_step df d5
    ["Middle_Band", "STD", "Upper_Band", "Lower_Band", "Bandwidth"] "Pct_B"
    (zipWith3 pbEntry (d5.getCol "Close") (d5.getCol "Lower_Band") (d5.getCol "Upper_Band"))
    (by simpa using s5.1) (by intro m; simpa using s5.2.1 m) s5.2.2 hPB (by decide)
  have hc : calcCols sq df w k = d5.setCol "Pct_B"
      (zipWith3 pbEntry (d5.getCol "Close") (d5.getCol "Lower_Band") (d5.getCol "Upper_Band")) := by
    rw [hd5, hd4, hd3, hd2, hd1]
    rfl
  rw [hc]
  exact ⟨by simpa [newCols] using s6.1, s6.2.2⟩

/-! ### Helper lemmas: frames built from a price series -/

lemma nrows_ofCloses (closes : List α) : (ofCloses closes).nrows = closes.length := by
  simp [ofCloses, DFrame.nrows]

lemma hasCol_ofCloses_close (closes : List α) : (ofCloses closes).hasCol "Close" = true := by
  simp [ofCloses, DFrame.hasCol]

lemma nrows_calcCols_ofCloses (sq : α → α) (closes : List α) (w : Nat) (k : α) :
    (calcCols sq (ofCloses closes) w k).nrows = closes.length := by
  rw [calcCols_ofCloses]
  simp [DFrame.nrows]

lemma cols_calcCols_ne_nil (sq : α → α) (closes : List α) (w : Nat) (k : α) :
    (calcCols sq (ofCloses closes) w k).cols ≠ [] := by
  rw [calcCols_ofCloses]
  simp

lemma calculate_of_long (sq : α → α) (closes : List α) (w : Nat) (k : α)
    (h : w ≤ closes.length) :
    calculate_bollinger_bands sq (ofCloses closes) w k
      = (calcCols sq (ofCloses closes) w k, (calcCols sq (ofCloses closes) w k).dropna) := by
  unfold calculate_bollinger_bands
  rw [if_neg]
  rw [not_or]
  refine ⟨by simp [hasCol_ofCloses_close], ?_⟩
  rw [nrows_ofCloses]
  omega

lemma svar_winSlice_replicate (n w i : Nat) (c : α) :
    svar (winSlice w i (List.replicate n c)) = 0 := by
  simp only [winSlice, List.drop_replicate, List.take_replicate]
  exact svar_replicate _ c

lemma keptRows_calcCols_replicate (n w : Nat) (c k : ℝ) (hw : 2 ≤ w) (hk : 0 < k) :
    (calcCols Real.sqrt (ofCloses (List.replicate n c)) w k).keptRows = [] := by
  unfold DFrame.keptRows
  rw [List.filter_eq_nil_iff]
  intro i hi
  rw [nrows_calcCols_ofCloses, List.length_replicate] at hi
  have hin : i < n := List.mem_range.mp hi
  intro hok
  have hch := (rowOk_calcCols_iff (List.replicate n c) w k hw hk
    (by simpa using hin)).mp hok
  exact hch.2 (svar_winSlice_replicate n w i c)

lemma nrows_dropna_calcCols (sq : α → α) (closes : List α) (w : Nat) (k : α) :
    (calcCols sq (ofCloses closes) w k).dropna.nrows
      = (calcCols sq (ofCloses closes) w k).keptRows.length := by
  rw [DFrame.nrows_dropna, if_neg (cols_calcCols_ne_nil sq closes w k)]

lemma isEmptyDF_dropna_calcCols (sq : α → α) (closes : List α) (w : Nat) (k : α) :
    (calcCols sq (ofCloses closes) w k).dropna.isEmptyDF
      = ((calcCols sq (ofCloses closes) w k).keptRows.length == 0) := by
  have hnr := nrows_dropna_calcCols sq closes w k
  have hcols : (calcCols sq (ofCloses closes) w k).dropna.cols.isEmpty = false := by
    rw [calcCols_ofCloses]
    simp [DFrame.dropna]
  simp [DFrame.isEmptyDF, hcols, hnr]

lemma calc_replicate_empty (n w : Nat) (c k : ℝ) (hw : 2 ≤ w) (hk : 0 < k) (hn : w ≤ n) :
    (calculate_bollinger_bands Real.sqrt (ofCloses (List.replicate n c)) w k).2.isEmptyDF
      = true := by
  rw [calculate_of_long Real.sqrt _ w k (by simpa using hn)]
  rw [isEmptyDF_dropna_calcCols, keptRows_calcCols_replicate n w c k hw hk]
  rfl

/-! ### Helper lemmas: the main flow -/

lemma isEmptyDF_eq_false {f : DFrame α} {n : String} (h1 : f.hasCol n = true)
    (h2 : f.nrows ≠ 0) : f.isEmptyDF = false := by
  have hc : f.cols ≠ [] := by
    intro hnil
    simp [DFrame.hasCol, hnil] at h1
  simp only [DFrame.isEmptyDF, Bool.or_eq_false_iff]
  constructor
  · simpa [List.isEmpty_iff] using hc
  · simpa using h2

lemma lastCell_ok_of_hasCol (f : DFrame α) {n : String} (h : f.hasCol n = true) :
    ∃ v, f.lastCell n = .ok v := by
  simp only [DFrame.hasCol, List.any_eq_true] at h
  obtain ⟨c, hc, he⟩ := h
  have hfind : (f.cols.find? (fun c => c.1 == n)).isSome := by
    rw [List.find?_isSome]
    exact ⟨c, hc, he⟩
  obtain ⟨c', hc'⟩ := Option.isSome_iff_exists.mp hfind
  refine ⟨c'.2.getD (f.nrows - 1) none, ?_⟩
  simp [DFrame.lastCell, hc']

lemma lastCell_error_of_not_hasCol (f : DFrame α) {n : String} (h : f.hasCol n = false) :
    f.lastCell n = .error ("KeyError: " ++ n) := by
  simp [DFrame.lastCell, DFrame.find?_eq_none_of_not_hasCol f h]

lemma latestBlock_ok_shape (df : DFrame α) (evs : List Event)
    (h : latestBlock df = .ok evs) : ∃ s, evs = [Event.metricStatus s, Event.table] := by
  rcases h1 : df.lastCell "Close" with e | c
  · simp [latestBlock, h1] at h
  rcases h2 : df.lastCell "Upper_Band" with e | u
  · simp [latestBlock, h1, h2] at h
  rcases h3 : df.lastCell "Lower_Band" with e | l
  · simp [latestBlock, h1, h2, h3] at h
  rcases h4 : df.lastCell "Bandwidth" with e | b
  · simp [latestBlock, h1, h2, h3, h4] at h
  · simp only [latestBlock, h1, h2, h3, h4] at h
    exact ⟨classifyLatest c u l, by simpa using h.symm⟩

lemma hasCol_dropna (f : DFrame α) (n : String) : f.dropna.hasCol n = f.hasCol n := by
  simp only [DFrame.dropna, DFrame.hasCol, List.any_map]
  rfl

lemma lastCell_eq (f : DFrame α) {n : String} (h : f.hasCol n = true) :
    f.lastCell n = .ok ((f.getCol n).getD (f.nrows - 1) none) := by
  simp only [DFrame.hasCol, List.any_eq_true] at h
  obtain ⟨c, hc, he⟩ := h
  have hfind : (f.cols.find? (fun c => c.1 == n)).isSome := by
    rw [List.find?_isSome]
    exact ⟨c, hc, he⟩
  obtain ⟨c', hc'⟩ := Option.isSome_iff_exists.mp hfind
  simp [DFrame.lastCell, DFrame.getCol, hc']

lemma warnNotEnough_not_mem_plotEvents (w : Nat) (df : DFrame α) :
    Event.warnNotEnough w ∉ plotEvents df := by
  unfold plotEvents
  split <;> simp

lemma calculate_short {df : DFrame α} (sq : α → α) {w : Nat} (k : α)
    (h : df.nrows < w) : calculate_bollinger_bands sq df w k = (df, df) := by
  unfold calculate_bollinger_bands
  rw [if_pos (Or.inr h)]

/-! ## Claim theorems -/

/-- C1: when the price fetch raises, `get_data` catches the exception and
reports it (`st.error`), and the whole run completes normally: the flow
emits the header and the fetch-error report, raises nothing, and stops —
a valid (empty) outcome with the failure recorded, even though zero
instruments were reachable. -/
theorem claim_C1_fetch_failure_isolated (ticker e : String) (w : Nat) (k : ℝ)
    (h : ticker ≠ "") :
    mainModel Real.sqrt ticker w k (.error e)
      = ([.subheader ("Analysis for: " ++ ticker),
          .errorFetch ("Error fetching data for " ++ ticker ++ ": " ++ e)], .ok ()) := by
  have hbeq : (ticker == "") = false := beq_eq_false_iff_ne.mpr h
  simp [mainModel, hbeq, get_data, DFrame.isEmptyDF]

/-- Witness for C1 at a concrete ticker and error. -/
theorem claim_C1_witness :
    mainModel Real.sqrt "GOOG" 20 (2 : ℝ) (.error "boom")
      = ([.subheader ("Analysis for: " ++ "GOOG"),
          .errorFetch ("Error fetching data for " ++ "GOOG" ++ ": " ++ "boom")], .ok ()) :=
  claim_C1_fetch_failure_isolated "GOOG" "boom" 20 2 (by decide)

/-- C4 (code bug): on a non-empty fetched series of 10 closes with
`window = 20`, the code does NOT report the insufficient-data condition:
`calculate_bollinger_bands` returns the frame unchanged with no error,
the non-empty guard passes, and the run dies with a KeyError on the
absent `Upper_Band` column; the `warnNotEnough` branch (source line 257)
never fires. -/
theorem claim_C4_insufficient_data_crash :
    mainModel Real.sqrt "AAPL" 20 2 (.ok (ofCloses [(1 : ℝ), 2, 3, 4, 5, 6, 7, 8, 9, 10]))
      = ([.subheader "Analysis for: AAPL", .warnPlot], .error "KeyError: Upper_Band")
    ∧ Event.warnNotEnough 20
      ∉ (mainModel Real.sqrt "AAPL" 20 2
          (.ok (ofCloses [(1 : ℝ), 2, 3, 4, 5, 6, 7, 8, 9, 10]))).1 := by
  constructor
  · rfl
  · intro hmem
    have hev : (mainModel Real.sqrt "AAPL" 20 2
        (.ok (ofCloses [(1 : ℝ), 2, 3, 4, 5, 6, 7, 8, 9, 10]))).1
        = [.subheader "Analysis for: AAPL", .warnPlot] := rfl
    rw [hev] at hmem
    simp at hmem

/-- C5: for a non-empty fetched series shorter than the window,
(i) `calculate_bollinger_bands` returns its input unchanged — no band
columns are added and no error is raised; (ii) the top-level flow passes
the non-empty guard and reaches the signal-status step, where indexing
the absent `Upper_Band` column fails with a KeyError; (iii) the
insufficient-data warning is emitted only when the returned band frame is
empty (and the fetched frame was not). -/
theorem claim_C5_short_series_flow :
    (∀ (df : DFrame ℝ) (w : Nat) (k : ℝ), df.nrows < w →
      calculate_bollinger_bands Real.sqrt df w k = (df, df))
    ∧ (∀ (df : DFrame ℝ) (w : Nat) (k : ℝ) (ticker : String), ticker ≠ "" →
        df.hasCol "Close" = true → df.nrows ≠ 0 → df.nrows < w →
        df.hasCol "Upper_Band" = false →
        mainModel Real.sqrt ticker w k (.ok df)
          = ([.subheader ("Analysis for: " ++ ticker), .warnPlot],
             .error "KeyError: Upper_Band"))
    ∧ (∀ (fetched : Except String (DFrame ℝ)) (ticker : String) (w : Nat) (k : ℝ),
        Event.warnNotEnough w ∈ (mainModel Real.sqrt ticker w k fetched).1 →
        (get_data ticker fetched).1.isEmptyDF = false
        ∧ (calculate_bollinger_bands Real.sqrt (get_data ticker fetched).1 w k).2.isEmptyDF
            = true) := by
  refine ⟨fun df w k h => calculate_short Real.sqrt k h, ?_, ?_⟩
  · intro df w k ticker ht h1 h2 h3 hUB
    have hbeq : (ticker == "") = false := beq_eq_false_iff_ne.mpr ht
    have hemp : df.isEmptyDF = false := isEmptyDF_eq_false h1 h2
    have hcalc : calculate_bollinger_bands Real.sqrt df w k = (df, df) :=
      calculate_short Real.sqrt k h3
    have hplot : plotEvents df = [Event.warnPlot] := by
      simp [plotEvents, hUB]
    obtain ⟨v, hv⟩ := lastCell_ok_of_hasCol df h1
    have hub := lastCell_error_of_not_hasCol df hUB
    have hlb : latestBlock df = .error "KeyError: Upper_Band" := by
      simp [latestBlock, hv, hub]
    simp [mainModel, hbeq, get_data, hemp, hcalc, hlb, hplot]
  · intro fetched ticker w k hmem
    by_cases ht : (ticker == "") = true
    · simp [mainModel, ht] at hmem
    · have htf : (ticker == "") = false := by
        simpa using ht
      rcases fetched with e | d
      · simp [mainModel, htf, get_data, DFrame.isEmptyDF] at hmem
      · by_cases hemp : d.isEmptyDF
        · simp [mainModel, htf, get_data, hemp] at hmem
        · have hempf : d.isEmptyDF = false := by simpa using hemp
          by_cases hbb : ((calculate_bollinger_bands Real.sqrt d w k).2).isEmptyDF
          · exact ⟨by simpa [get_data] using hempf, by simpa [get_data] using hbb⟩
          · exfalso
            have hbbf : ((calculate_bollinger_bands Real.sqrt d w k).2).isEmptyDF = false := by
              simpa using hbb
            rcases hlb : latestBlock ((calculate_bollinger_bands Real.sqrt d w k).2)
              with e' | evs
            · simp [mainModel, htf, get_data, hempf, hbbf, hlb] at hmem
              exact warnNotEnough_not_mem_plotEvents w _ hmem
            · obtain ⟨s, rfl⟩ := latestBlock_ok_shape _ _ hlb
              simp [mainModel, htf, get_data, hempf, hbbf, hlb] at hmem
              exact warnNotEnough_not_mem_plotEvents w _ hmem

/-- Witness for C5: part (ii) at a concrete 10-row frame and window 20. -/
theorem claim_C5_witness :
    mainModel Real.sqrt "AAPL" 20 2 (.ok (ofCloses [(10 : ℝ), 20, 30, 40, 50, 60, 70, 80, 90, 100]))
      = ([.subheader ("Analysis for: " ++ "AAPL"), .warnPlot], .error "KeyError: Upper_Band") :=
  claim_C5_short_series_flow.2.1 (ofCloses [(10 : ℝ), 20, 30, 40, 50, 60, 70, 80, 90, 100])
    20 2 "AAPL" (by decide) (by decide) (by decide) (by decide) (by decide)

/-- C6: for a series with at least `window` closes and any index
`i ≥ window - 1`, the computed cells are exactly the spec formulas:
`Middle_Band[i]` is the mean of the trailing window, `STD[i]` the sample
standard deviation (`ddof = 1`, i.e. the square root of the sample
variance) over the same window, `Upper[i] = Middle[i] + k·STD[i]` and
`Lower[i] = Middle[i] - k·STD[i]`. -/
theorem claim_C6_band_formulas (closes : List ℝ) (w : Nat) (k : ℝ) (i : Nat)
    (hw : 2 ≤ w) (hlen : w ≤ closes.length) (hi1 : w - 1 ≤ i) (hi2 : i < closes.length) :
    ((calcCols Real.sqrt (ofCloses closes) w k).getCol "Middle_Band").getD i none
        = some (specMean w i closes)
    ∧ ((calcCols Real.sqrt (ofCloses closes) w k).getCol "STD").getD i none
        = some (Real.sqrt (specSVar w i closes))
    ∧ ((calcCols Real.sqrt (ofCloses closes) w k).getCol "Upper_Band").getD i none
        = some (specMean w i closes + k * Real.sqrt (specSVar w i closes))
    ∧ ((calcCols Real.sqrt (ofCloses closes) w k).getCol "Lower_Band").getD i none
        = some (specMean w i closes - k * Real.sqrt (specSVar w i closes)) := by
  have h2 : w ≤ i + 1 := by omega
  refine ⟨?_, ?_, ?_, ?_⟩
  · rw [getCol_calc_mid, midCell w closes hi2 h2, meanL_winSlice closes hi2 h2]
  · rw [getCol_calc_std, stdCell Real.sqrt w closes hi2 h2 hw, svar_winSlice closes hi2 h2]
  · rw [getCol_calc_up, upCell Real.sqrt w k closes hi2 h2 hw, meanL_winSlice closes hi2 h2,
      svar_winSlice closes hi2 h2, mul_comm]
  · rw [getCol_calc_lo, loCell Real.sqrt w k closes hi2 h2 hw, meanL_winSlice closes hi2 h2,
      svar_winSlice closes hi2 h2, mul_comm]

/-- Witness for C6 at the series `[1, 2, 3]`, window 2, index 1. -/
theorem claim_C6_witness :
    ((calcCols Real.sqrt (ofCloses [(1 : ℝ), 2, 3]) 2 1).getCol "Middle_Band").getD 1 none
        = some (specMean 2 1 [(1 : ℝ), 2, 3])
    ∧ ((calcCols Real.sqrt (ofCloses [(1 : ℝ), 2, 3]) 2 1).getCol "STD").getD 1 none
        = some (Real.sqrt (specSVar 2 1 [(1 : ℝ), 2, 3]))
    ∧ ((calcCols Real.sqrt (ofCloses [(1 : ℝ), 2, 3]) 2 1).getCol "Upper_Band").getD 1 none
        = some (specMean 2 1 [(1 : ℝ), 2, 3] + 1 * Real.sqrt (specSVar 2 1 [(1 : ℝ), 2, 3]))
    ∧ ((calcCols Real.sqrt (ofCloses [(1 : ℝ), 2, 3]) 2 1).getCol "Lower_Band").getD 1 none
        = some (specMean 2 1 [(1 : ℝ), 2, 3] - 1 * Real.sqrt (specSVar 2 1 [(1 : ℝ), 2, 3])) :=
  claim_C6_band_formulas [(1 : ℝ), 2, 3] 2 1 1 (by decide) (by decide) (by decide) (by decide)

/-- C7: for `window ≥ 2`, `stdMultiplier > 0` and any series, at every
computed index the bands are ordered `Upper ≥ Middle ≥ Lower`, with
equality on both sides exactly when the trailing standard deviation
(the square root of the trailing sample variance) is zero. -/
theorem claim_C7_band_ordering (closes : List ℝ) (w : Nat) (k : ℝ) (i : Nat)
    (hw : 2 ≤ w) (hk : 0 < k) (hi1 : w - 1 ≤ i) (hi2 : i < closes.length) :
    ((calcCols Real.sqrt (ofCloses closes) w k).getCol "Middle_Band").getD i none
        = some (meanL (winSlice w i closes))
    ∧ ((calcCols Real.sqrt (ofCloses closes) w k).getCol "Upper_Band").getD i none
        = some (meanL (winSlice w i closes) + Real.sqrt (svar (winSlice w i closes)) * k)
    ∧ ((calcCols Real.sqrt (ofCloses closes) w k).getCol "Lower_Band").getD i none
        = some (meanL (winSlice w i closes) - Real.sqrt (svar (winSlice w i closes)) * k)
    ∧ meanL (winSlice w i closes) - Real.sqrt (svar (winSlice w i closes)) * k
        ≤ meanL (winSlice w i closes)
    ∧ meanL (winSlice w i closes)
        ≤ meanL (winSlice w i closes) + Real.sqrt (svar (winSlice w i closes)) * k
    ∧ ((meanL (winSlice w i closes) + Real.sqrt (svar (winSlice w i closes)) * k
          = meanL (winSlice w i closes)
        ∧ meanL (winSlice w i closes) - Real.sqrt (svar (winSlice w i closes)) * k
          = meanL (winSlice w i closes))
        ↔ Real.sqrt (svar (winSlice w i closes)) = 0) := by
  have h2 : w ≤ i + 1 := by omega
  have hs : 0 ≤ Real.sqrt (svar (winSlice w i closes)) := Real.sqrt_nonneg _
  have hsk : 0 ≤ Real.sqrt (svar (winSlice w i closes)) * k :=
    mul_nonneg hs (le_of_lt hk)
  refine ⟨by rw [getCol_calc_mid, midCell w closes hi2 h2],
    by rw [getCol_calc_up, upCell Real.sqrt w k closes hi2 h2 hw],
    by rw [getCol_calc_lo, loCell Real.sqrt w k closes hi2 h2 hw], by linarith, by linarith, ?_⟩
  constructor
  · rintro ⟨hu, _⟩
    have : Real.sqrt (svar (winSlice w i closes)) * k = 0 := by linarith
    rcases mul_eq_zero.mp this with h0 | h0
    · exact h0
    · exact absurd h0 (ne_of_gt hk)
  · intro h0
    rw [h0]
    constructor <;> ring

/-- Witness for C7 at the constant series `[5, 5, 5]`, window 2, index 1,
multiplier 2. -/
theorem claim_C7_witness :
    ((calcCols Real.sqrt (ofCloses [(5 : ℝ), 5, 5]) 2 2).getCol "Middle_Band").getD 1 none
        = some (meanL (winSlice 2 1 [(5 : ℝ), 5, 5]))
    ∧ ((calcCols Real.sqrt (ofCloses [(5 : ℝ), 5, 5]) 2 2).getCol "Upper_Band").getD 1 none
        = some (meanL (winSlice 2 1 [(5 : ℝ), 5, 5])
            + Real.sqrt (svar (winSlice 2 1 [(5 : ℝ), 5, 5])) * 2)
    ∧ ((calcCols Real.sqrt (ofCloses [(5 : ℝ), 5, 5]) 2 2).getCol "Lower_Band").getD 1 none
        = some (meanL (winSlice 2 1 [(5 : ℝ), 5, 5])
            - Real.sqrt (svar (winSlice 2 1 [(5 : ℝ), 5, 5])) * 2)
    ∧ meanL (winSlice 2 1 [(5 : ℝ), 5, 5]) - Real.sqrt (svar (winSlice 2 1 [(5 : ℝ), 5, 5])) * 2
        ≤ meanL (winSlice 2 1 [(5 : ℝ), 5, 5])
    ∧ meanL (winSlice 2 1 [(5 : ℝ), 5, 5])
        ≤ meanL (winSlice 2 1 [(5 : ℝ), 5, 5]) + Real.sqrt (svar (winSlice 2 1 [(5 : ℝ), 5, 5])) * 2
    ∧ ((meanL (winSlice 2 1 [(5 : ℝ), 5, 5]) + Real.sqrt (svar (winSlice 2 1 [(5 : ℝ), 5, 5])) * 2
          = meanL (winSlice 2 1 [(5 : ℝ), 5, 5])
        ∧ meanL (winSlice 2 1 [(5 : ℝ), 5, 5]) - Real.sqrt (svar (winSlice 2 1 [(5 : ℝ), 5, 5])) * 2
          = meanL (winSlice 2 1 [(5 : ℝ), 5, 5]))
        ↔ Real.sqrt (svar (winSlice 2 1 [(5 : ℝ), 5, 5])) = 0) :=
  claim_C7_band_ordering [(5 : ℝ), 5, 5] 2 2 1 (by decide) (by norm_num) (by decide) (by decide)

/-- C10 (causality): for `window ≥ 2`, if two series agree on all entries
up to and including index `i`, then every computed cell at `i`
(`Middle_Band`, `STD`, `Upper_Band`, `Lower_Band`, `Bandwidth`, `Pct_B`)
is identical: no value at `i` looks ahead of `i`. -/
theorem claim_C10_causality (xs ys : List ℝ) (w : Nat) (k : ℝ) (i : Nat)
    (hw : 2 ≤ w) (hx : i < xs.length) (hy : i < ys.length)
    (h : xs.take (i + 1) = ys.take (i + 1)) :
    ((calcCols Real.sqrt (ofCloses xs) w k).getCol "Middle_Band").getD i none
        = ((calcCols Real.sqrt (ofCloses ys) w k).getCol "Middle_Band").getD i none
    ∧ ((calcCols Real.sqrt (ofCloses xs) w k).getCol "STD").getD i none
        = ((calcCols Real.sqrt (ofCloses ys) w k).getCol "STD").getD i none
    ∧ ((calcCols Real.sqrt (ofCloses xs) w k).getCol "Upper_Band").getD i none
        = ((calcCols Real.sqrt (ofCloses ys) w k).getCol "Upper_Band").getD i none
    ∧ ((calcCols Real.sqrt (ofCloses xs) w k).getCol "Lower_Band").getD i none
        = ((calcCols Real.sqrt (ofCloses ys) w k).getCol "Lower_Band").getD i none
    ∧ ((calcCols Real.sqrt (ofCloses xs) w k).getCol "Bandwidth").getD i none
        = ((calcCols Real.sqrt (ofCloses ys) w k).getCol "Bandwidth").getD i none
    ∧ ((calcCols Real.sqrt (ofCloses xs) w k).getCol "Pct_B").getD i none
        = ((calcCols Real.sqrt (ofCloses ys) w k).getCol "Pct_B").getD i none := by
  have hgm := fun zs : List ℝ => getCol_calc_mid Real.sqrt zs w k
  have hgs := fun zs : List ℝ => getCol_calc_std Real.sqrt zs w k
  have hgu := fun zs : List ℝ => getCol_calc_up Real.sqrt zs w k
  have hgl := fun zs : List ℝ => getCol_calc_lo Real.sqrt zs w k
  have hgb := fun zs : List ℝ => getCol_calc_bw Real.sqrt zs w k
  have hgp := fun zs : List ℝ => getCol_calc_pb Real.sqrt zs w k
  by_cases h2 : w ≤ i + 1
  · have hsl : winSlice w i xs = winSlice w i ys := winSlice_eq_of_take_eq xs ys h h2
    have hcd : xs.getD i 0 = ys.getD i 0 := getD_eq_of_take_eq xs ys 0 h
    refine ⟨?_, ?_, ?_, ?_, ?_, ?_⟩
    · rw [hgm xs, hgm ys, midCell w xs hx h2, midCell w ys hy h2, hsl]
    · rw [hgs xs, hgs ys, stdCell Real.sqrt w xs hx h2 hw,
        stdCell Real.sqrt w ys hy h2 hw, hsl]
    · rw [hgu xs, hgu ys, upCell Real.sqrt w k xs hx h2 hw,
        upCell Real.sqrt w k ys hy h2 hw, hsl]
    · rw [hgl xs, hgl ys, loCell Real.sqrt w k xs hx h2 hw,
        loCell Real.sqrt w k ys hy h2 hw, hsl]
    · rw [hgb xs, hgb ys, bwCell Real.sqrt w k xs hx h2 hw,
        bwCell Real.sqrt w k ys hy h2 hw, hsl]
    · rw [hgp xs, hgp ys, pbCell Real.sqrt w k xs hx h2 hw,
        pbCell Real.sqrt w k ys hy h2 hw, hsl, hcd]
  · refine ⟨?_, ?_, ?_, ?_, ?_, ?_⟩
    · rw [hgm xs, hgm ys, midCell_none w xs hx h2, midCell_none w ys hy h2]
    · rw [hgs xs, hgs ys, stdCell_none Real.sqrt w xs hx h2, stdCell_none Real.sqrt w ys hy h2]
    · rw [hgu xs, hgu ys, upCell_none Real.sqrt w k xs hx h2, upCell_none Real.sqrt w k ys hy h2]
    · rw [hgl xs, hgl ys, loCell_none Real.sqrt w k xs hx h2, loCell_none Real.sqrt w k ys hy h2]
    · rw [hgb xs, hgb ys, bwCell_none Real.sqrt w k xs hx h2, bwCell_none Real.sqrt w k ys hy h2]
    · rw [hgp xs, hgp ys, pbCell_none Real.sqrt w k xs hx h2, pbCell_none Real.sqrt w k ys hy h2]

lemma nearSellCloses_length : nearSellCloses.length = 10 := by
  simp [nearSellCloses]

lemma meanL_nearSell : meanL nearSellCloses = 100 := by
  norm_num [meanL, nearSellCloses]

lemma svar_nearSell : svar nearSellCloses = 100 := by
  unfold svar
  rw [meanL_nearSell]
  norm_num [nearSellCloses]

lemma winSlice_nearSell : winSlice 10 9 nearSellCloses = nearSellCloses := by
  show (nearSellCloses.drop (9 + 1 - 10)).take 10 = nearSellCloses
  norm_num
  rw [nearSellCloses_length]

lemma sqrt_hundred : Real.sqrt 100 = 10 := by
  rw [show (100 : ℝ) = 10 ^ 2 by norm_num]
  exact Real.sqrt_sq (by norm_num)

lemma keptRows_nearSell :
    (calcCols Real.sqrt (ofCloses nearSellCloses) 10 2).keptRows = [9] := by
  unfold DFrame.keptRows
  rw [nrows_calcCols_ofCloses, nearSellCloses_length]
  rw [List.filter_congr (q := fun i => decide (i = 9)) ?_]
  · rfl
  · intro i hi
    show (calcCols Real.sqrt (ofCloses nearSellCloses) 10 2).rowOk i = decide (i = 9)
    have hi10 : i < 10 := List.mem_range.mp hi
    by_cases h9 : i = 9
    · subst h9
      have hchar := rowOk_calcCols_iff nearSellCloses 10 2 (by norm_num) (by norm_num)
        (i := 9) (by rw [nearSellCloses_length]; omega)
      have hro : (calcCols Real.sqrt (ofCloses nearSellCloses) 10 2).rowOk 9 = true :=
        hchar.mpr ⟨by omega, by rw [winSlice_nearSell, svar_nearSell]; norm_num⟩
      rw [hro]
      simp
    · have hchar := rowOk_calcCols_iff nearSellCloses 10 2 (by norm_num) (by norm_num)
        (i := i) (by rw [nearSellCloses_length]; omega)
      have hro : (calcCols Real.sqrt (ofCloses nearSellCloses) 10 2).rowOk i = false := by
        rw [Bool.eq_false_iff]
        intro ht
        have := (hchar.mp ht).1
        omega
      rw [hro]
      simp [h9]

lemma pbCell_nearSell :
    (pbCol Real.sqrt 10 2 (nearSellCloses.map some)).getD 9 none = some (39 / 40) := by
  rw [pbCell Real.sqrt 10 2 nearSellCloses (by rw [nearSellCloses_length]; omega)
    (by omega) (by omega)]
  rw [winSlice_nearSell, meanL_nearSell, svar_nearSell, sqrt_hundred]
  have hc9 : nearSellCloses.getD 9 0 = 119 := by norm_num [nearSellCloses]
  rw [hc9]
  simp only [pbEntry]
  rw [if_neg (by rintro ⟨h0, _⟩; norm_num at h0)]
  norm_num

lemma getColR_nearSell (n : String) (hn : (calcCols Real.sqrt (ofCloses nearSellCloses) 10 2).hasCol n = true) :
    (calcCols Real.sqrt (ofCloses nearSellCloses) 10 2).dropna.getCol n
      = [((calcCols Real.sqrt (ofCloses nearSellCloses) 10 2).getCol n).getD 9 none] := by
  rw [DFrame.getCol_dropna _ hn, keptRows_nearSell]
  rfl

lemma nrowsR_nearSell :
    (calcCols Real.sqrt (ofCloses nearSellCloses) 10 2).dropna.nrows = 1 := by
  rw [nrows_dropna_calcCols, keptRows_nearSell]
  rfl

lemma lastCellR_nearSell (n : String)
    (hn : (calcCols Real.sqrt (ofCloses nearSellCloses) 10 2).hasCol n = true) :
    (calcCols Real.sqrt (ofCloses nearSellCloses) 10 2).dropna.lastCell n
      = .ok (((calcCols Real.sqrt (ofCloses nearSellCloses) 10 2).getCol n).getD 9 none) := by
  rw [lastCell_eq _ (by rw [hasCol_dropna]; exact hn), getColR_nearSell n hn, nrowsR_nearSell]
  rfl

/-- C2 (amended): the signal status of the latest point is computed from
the raw close against the band boundaries — `Close > Upper_Band` is
Overbought, `Close < Lower_Band` is Oversold, otherwise Neutral.  When
the band width is positive this is exactly the %B rule with the
HARD-CODED thresholds 1 and 0 (price outside the bands), not the
configurable 0.05 / 0.95 thresholds of the claim, and Neutral is shown
as a status rather than suppressed. -/
theorem claim_C2_classification_by_bands (c u l : ℝ) (h : l < u) :
    classifyLatest (some c) (some u) (some l)
      = (if 1 < (c - l) / (u - l) then "Overbought (Price above Upper Band)"
         else if (c - l) / (u - l) < 0 then "Oversold (Price below Lower Band)"
         else "Neutral") := by
  have hul : 0 < u - l := by linarith
  have h1 : (1 < (c - l) / (u - l)) ↔ u < c := by
    rw [lt_div_iff₀ hul]
    constructor <;> intro <;> linarith
  have h2 : ((c - l) / (u - l) < 0) ↔ c < l := by
    rw [div_lt_iff₀ hul]
    constructor <;> intro <;> linarith
  simp only [h1, h2]
  unfold classifyLatest
  by_cases hcu : u < c
  · have e1 : ogt (some c) (some u) = true := by simp [ogt, hcu]
    rw [e1, if_pos hcu]
    simp
  · have e1 : ogt (some c) (some u) = false := by simp [ogt, hcu]
    rw [e1, if_neg hcu]
    simp only [Bool.false_eq_true, if_false]
    by_cases hcl : c < l
    · have e2 : ogt (some l) (some c) = true := by simp [ogt, hcl]
      rw [e2, if_pos hcl]
      simp
    · have e2 : ogt (some l) (some c) = false := by simp [ogt, hcl]
      rw [e2, if_neg hcl]
      simp

/-- Witness for C2's amended theorem at `c = 1`, `u = 2`, `l = 0`. -/
theorem claim_C2_witness :
    classifyLatest (some (1 : ℝ)) (some 2) (some 0)
      = (if 1 < ((1 : ℝ) - 0) / (2 - 0) then "Overbought (Price above Upper Band)"
         else if ((1 : ℝ) - 0) / (2 - 0) < 0 then "Oversold (Price below Lower Band)"
         else "Neutral") :=
  claim_C2_classification_by_bands 1 2 0 (by norm_num)

/-- C2 counterexample: on the 10-close series `nearSellCloses` with
window 10, multiplier 2, the latest computed point has
`pctB = 0.975 > 0.95`, yet the app's signal status is "Neutral"
(the close 119 is inside the upper band 120): the classification is NOT
the %B rule with thresholds 0.05 / 0.95. -/
theorem claim_C2_counterexample :
    (calculate_bollinger_bands Real.sqrt (ofCloses nearSellCloses) 10 2).2.getCol "Pct_B"
        = [some (39 / 40)]
    ∧ (0.95 : ℝ) < 39 / 40
    ∧ latestBlock (calculate_bollinger_bands Real.sqrt (ofCloses nearSellCloses) 10 2).2
        = .ok [Event.metricStatus "Neutral", Event.table] := by
  have hcalc := calculate_of_long Real.sqrt nearSellCloses 10 2
    (by rw [nearSellCloses_length])
  have hin9 : (9 : Nat) < nearSellCloses.length := by rw [nearSellCloses_length]; omega
  have h29 : (10 : Nat) ≤ 9 + 1 := by omega
  have hmidv : (rollingMean 10 (nearSellCloses.map some)).getD 9 none = some 100 := by
    rw [midCell 10 nearSellCloses hin9 h29, winSlice_nearSell, meanL_nearSell]
  have hstdv : (rollingStd Real.sqrt 10 (nearSellCloses.map some)).getD 9 none
      = some 10 := by
    rw [stdCell Real.sqrt 10 nearSellCloses hin9 h29 (by omega), winSlice_nearSell,
      svar_nearSell, sqrt_hundred]
  have hupv : (upCol Real.sqrt 10 2 (nearSellCloses.map some)).getD 9 none = some 120 := by
    rw [upCell Real.sqrt 10 2 nearSellCloses hin9 h29 (by omega), winSlice_nearSell,
      meanL_nearSell, svar_nearSell, sqrt_hundred]
    norm_num
  have hlov : (loCol Real.sqrt 10 2 (nearSellCloses.map some)).getD 9 none = some 80 := by
    rw [loCell Real.sqrt 10 2 nearSellCloses hin9 h29 (by omega), winSlice_nearSell,
      meanL_nearSell, svar_nearSell, sqrt_hundred]
    norm_num
  have hbwv : (bwCol Real.sqrt 10 2 (nearSellCloses.map some)).getD 9 none = some 40 := by
    rw [bwCell Real.sqrt 10 2 nearSellCloses hin9 h29 (by omega), winSlice_nearSell,
      meanL_nearSell, svar_nearSell, sqrt_hundred]
    simp only [bwEntry]
    rw [if_neg (by rintro ⟨h0, _⟩; norm_num at h0)]
    norm_num
  have hasClose : (calcCols Real.sqrt (ofCloses nearSellCloses) 10 2).hasCol "Close"
      = true := by
    rw [calcCols_ofCloses]
    rfl
  have hasUp : (calcCols Real.sqrt (ofCloses nearSellCloses) 10 2).hasCol "Upper_Band"
      = true := by
    rw [calcCols_ofCloses]
    rfl
  have hasLo : (calcCols Real.sqrt (ofCloses nearSellCloses) 10 2).hasCol "Lower_Band"
      = true := by
    rw [calcCols_ofCloses]
    rfl
  have hasBw : (calcCols Real.sqrt (ofCloses nearSellCloses) 10 2).hasCol "Bandwidth"
      = true := by
    rw [calcCols_ofCloses]
    rfl
  have hasPb : (calcCols Real.sqrt (ofCloses nearSellCloses) 10 2).hasCol "Pct_B"
      = true := by
    rw [calcCols_ofCloses]
    rfl
  have hc9 : (nearSellCloses.map some).getD 9 none = some 119 := by
    norm_num [nearSellCloses]
  refine ⟨?_, by norm_num, ?_⟩
  · rw [hcalc]
    show (calcCols Real.sqrt (ofCloses nearSellCloses) 10 2).dropna.getCol "Pct_B" = _
    rw [getColR_nearSell "Pct_B" hasPb, getCol_calc_pb, pbCell_nearSell]
  · rw [hcalc]
    show latestBlock (calcCols Real.sqrt (ofCloses nearSellCloses) 10 2).dropna = _
    have hlcC := lastCellR_nearSell "Close" hasClose
    rw [getCol_calc_close, hc9] at hlcC
    have hlcU := lastCellR_nearSell "Upper_Band" hasUp
    rw [getCol_calc_up, hupv] at hlcU
    have hlcL := lastCellR_nearSell "Lower_Band" hasLo
    rw [getCol_calc_lo, hlov] at hlcL
    have hlcB := lastCellR_nearSell "Bandwidth" hasBw
    rw [getCol_calc_bw, hbwv] at hlcB
    simp only [latestBlock, hlcC, hlcU, hlcL, hlcB]
    have hclass : classifyLatest (some (119 : ℝ)) (some 120) (some 80) = "Neutral" := by
      unfold classifyLatest
      rw [if_neg (by simp [ogt]; norm_num), if_neg (by simp [ogt]; norm_num)]
    rw [hclass]

/-- C3 counterexample: on 25 identical closes of 100 with window 20 and
multiplier 2 the band computation produces NO point at all — the returned
frame has an empty `Pct_B` column and zero rows (`Pct_B = 0/0 = NaN` on
every computed row, and `dropna` removes them all), so no point with
`pctB = 0.5` exists and nothing is classified. -/
theorem claim_C3_counterexample :
    (calculate_bollinger_bands Real.sqrt (ofCloses (List.replicate 25 (100 : ℝ))) 20 2).2.getCol
        "Pct_B" = []
    ∧ (calculate_bollinger_bands Real.sqrt (ofCloses (List.replicate 25 (100 : ℝ))) 20 2).2.nrows
        = 0 := by
  rw [calculate_of_long Real.sqrt _ 20 2 (by simp)]
  constructor
  · show (calcCols Real.sqrt (ofCloses (List.replicate 25 (100 : ℝ))) 20 2).dropna.getCol
        "Pct_B" = []
    have hasPB : (calcCols Real.sqrt (ofCloses (List.replicate 25 (100 : ℝ))) 20 2).hasCol
        "Pct_B" = true := by
      rw [calcCols_ofCloses]
      rfl
    rw [DFrame.getCol_dropna _ hasPB,
      keptRows_calcCols_replicate 25 20 100 2 (by norm_num) (by norm_num)]
    rfl
  · show (calcCols Real.sqrt (ofCloses (List.replicate 25 (100 : ℝ))) 20 2).dropna.nrows = 0
    rw [nrows_dropna_calcCols,
      keptRows_calcCols_replicate 25 20 100 2 (by norm_num) (by norm_num)]
    rfl

/-- C3 (amended): when the trailing standard deviation is zero the code
has no `pctB = 0.5` convention: `Pct_B` is the indeterminate `0/0` (NaN)
and the whole row is dropped.  A constant series therefore yields an
EMPTY band frame (for any `n ≥ window ≥ 2`, multiplier `> 0`), and on the
spec's own example (25 closes of 100.0, window 20, multiplier 2) the app
shows the not-enough-data warning and emits no signal. -/
theorem claim_C3_zero_width_rows_dropped (n w : Nat) (c k : ℝ) (hw : 2 ≤ w)
    (hk : 0 < k) (hn : w ≤ n) :
    (calculate_bollinger_bands Real.sqrt (ofCloses (List.replicate n c)) w k).2.isEmptyDF = true
    ∧ mainModel Real.sqrt "GOOG" 20 2 (.ok (ofCloses (List.replicate 25 (100 : ℝ))))
        = ([.subheader ("Analysis for: " ++ "GOOG"), .warnNotEnough 20], .ok ()) := by
  constructor
  · exact calc_replicate_empty n w c k hw hk hn
  · have hemp : (ofCloses (List.replicate 25 (100 : ℝ))).isEmptyDF = false := by
      simp [ofCloses, DFrame.isEmptyDF, DFrame.nrows]
    have hbb := calc_replicate_empty 25 20 100 2 (by norm_num) (by norm_num) (by norm_num)
    simp only [mainModel, get_data, hemp, hbb]
    rfl

/-- Witness for C3's amended theorem at the spec's concrete scenario. -/
theorem claim_C3_witness :
    (calculate_bollinger_bands Real.sqrt (ofCloses (List.replicate 25 (100 : ℝ))) 20 2).2.isEmptyDF
        = true
    ∧ mainModel Real.sqrt "GOOG" 20 2 (.ok (ofCloses (List.replicate 25 (100 : ℝ))))
        = ([.subheader ("Analysis for: " ++ "GOOG"), .warnNotEnough 20], .ok ()) :=
  claim_C3_zero_width_rows_dropped 25 20 100 2 (by norm_num) (by norm_num) (by norm_num)

lemma constPlusJump_length : constPlusJump.length = 21 := by
  simp [constPlusJump]

lemma rowOk_constPlusJump_19 :
    (calcCols Real.sqrt (ofCloses constPlusJump) 20 2).rowOk 19 = false := by
  have hchar := rowOk_calcCols_iff constPlusJump 20 2 (by norm_num) (by norm_num)
    (i := 19) (by rw [constPlusJump_length]; omega)
  rw [Bool.eq_false_iff]
  intro htrue
  have hsv := (hchar.mp htrue).2
  have hsl0 : winSlice 20 19 constPlusJump = List.replicate 20 (100 : ℝ) := by
    show (constPlusJump.drop (19 + 1 - 20)).take 20 = List.replicate 20 (100 : ℝ)
    norm_num
    rw [constPlusJump, List.take_append_of_le_length (by simp),
      List.take_of_length_le (by simp)]
  exact hsv (by rw [hsl0]; exact svar_replicate 20 100)

lemma rowOk_constPlusJump_20 :
    (calcCols Real.sqrt (ofCloses constPlusJump) 20 2).rowOk 20 = true := by
  have hchar := rowOk_calcCols_iff constPlusJump 20 2 (by norm_num) (by norm_num)
    (i := 20) (by rw [constPlusJump_length]; omega)
  rw [hchar]
  refine ⟨by omega, ?_⟩
  have hsl : winSlice 20 20 constPlusJump = List.replicate 19 (100 : ℝ) ++ [105] := by
    show (constPlusJump.drop (20 + 1 - 20)).take 20 = List.replicate 19 (100 : ℝ) ++ [105]
    rw [constPlusJump, List.drop_append_of_le_length (by simp), List.drop_replicate,
      List.take_of_length_le (by simp)]
  rw [hsl]
  intro hv
  have hall := (svar_eq_zero_iff (List.replicate 19 (100 : ℝ) ++ [105]) (by simp)).mp hv
  have h1 := hall 100 (by simp)
  have h2 := hall 105 (by simp)
  rw [← h1] at h2
  norm_num at h2

lemma keptRows_constPlusJump :
    (calcCols Real.sqrt (ofCloses constPlusJump) 20 2).keptRows = [20] := by
  unfold DFrame.keptRows
  rw [nrows_calcCols_ofCloses, constPlusJump_length]
  rw [List.filter_congr (q := fun i => decide (i = 20)) ?_]
  · rfl
  · intro i hi
    show (calcCols Real.sqrt (ofCloses constPlusJump) 20 2).rowOk i = decide (i = 20)
    have hi21 : i < 21 := List.mem_range.mp hi
    by_cases h20 : i = 20
    · subst h20
      rw [rowOk_constPlusJump_20]
      simp
    · have hne : decide (i = 20) = false := by simp [h20]
      rw [hne]
      rcases Nat.lt_or_ge i 19 with hlt | hge
      · have hchar := rowOk_calcCols_iff constPlusJump 20 2 (by norm_num) (by norm_num)
          (i := i) (by rw [constPlusJump_length]; omega)
        rw [Bool.eq_false_iff]
        intro htrue
        have := (hchar.mp htrue).1
        omega
      · have hi19 : i = 19 := by omega
        subst hi19
        exact rowOk_constPlusJump_19

/-- C8 counterexample: the series of 20 closes at 100 followed by 105,
with window 20, multiplier 2.  The claim predicts exactly
`len - window + 1 = 2` output points with every index `i ≥ 19` present;
the code returns only 1 (index 19 has zero trailing variance, its
`Pct_B` is NaN, and `dropna` removes it). -/
theorem claim_C8_counterexample :
    (calculate_bollinger_bands Real.sqrt (ofCloses constPlusJump) 20 2).2.nrows = 1
    ∧ (calcCols Real.sqrt (ofCloses constPlusJump) 20 2).rowOk 19 = false
    ∧ constPlusJump.length - 20 + 1 = 2 := by
  refine ⟨?_, rowOk_constPlusJump_19, by rw [constPlusJump_length]⟩
  rw [calculate_of_long Real.sqrt _ 20 2 (by rw [constPlusJump_length]; omega)]
  show (calcCols Real.sqrt (ofCloses constPlusJump) 20 2).dropna.nrows = 1
  rw [nrows_dropna_calcCols, keptRows_constPlusJump]
  rfl

/-- C8 (amended): for `window ≥ 2`, multiplier `> 0` and `len ≥ window`,
the output is aligned, in input order, with exactly the indices
`i ≥ window - 1` whose trailing sample variance is nonzero (rows with
zero trailing variance are also dropped, via `Pct_B = NaN`): the kept-row
set is characterised pointwise, the returned `Close` column is the input
closes restricted to the kept rows in order, and the output length is the
number of kept rows. -/
theorem claim_C8_alignment (closes : List ℝ) (w : Nat) (k : ℝ)
    (hw : 2 ≤ w) (hk : 0 < k) (hlen : w ≤ closes.length) :
    (∀ i, i < closes.length →
      ((calcCols Real.sqrt (ofCloses closes) w k).rowOk i = true
        ↔ (w - 1 ≤ i ∧ svar (winSlice w i closes) ≠ 0)))
    ∧ (calculate_bollinger_bands Real.sqrt (ofCloses closes) w k).2.getCol "Close"
        = (calcCols Real.sqrt (ofCloses closes) w k).keptRows.map
            (fun i => some (closes.getD i 0))
    ∧ (calculate_bollinger_bands Real.sqrt (ofCloses closes) w k).2.nrows
        = (calcCols Real.sqrt (ofCloses closes) w k).keptRows.length := by
  refine ⟨?_, ?_, ?_⟩
  · intro i hi
    rw [rowOk_calcCols_iff closes w k hw hk hi]
    constructor <;> rintro ⟨h1, h2⟩ <;> exact ⟨by omega, h2⟩
  · rw [calculate_of_long Real.sqrt _ w k hlen]
    show (calcCols Real.sqrt (ofCloses closes) w k).dropna.getCol "Close" = _
    have hasClose : (calcCols Real.sqrt (ofCloses closes) w k).hasCol "Close" = true := by
      rw [calcCols_ofCloses]
      rfl
    rw [DFrame.getCol_dropna _ hasClose, getCol_calc_close]
    apply List.map_congr_left
    intro i hi
    have hir : i < closes.length := by
      have := List.mem_range.mp (List.mem_of_mem_filter hi)
      rwa [nrows_calcCols_ofCloses] at this
    exact getD_map_some closes hir
  · rw [calculate_of_long Real.sqrt _ w k hlen]
    exact nrows_dropna_calcCols Real.sqrt closes w k

/-- Witness for C8's amended theorem at the series `[0, 2]`, window 2,
multiplier 1. -/
theorem claim_C8_witness :
    (∀ i, i < [(0 : ℝ), 2].length →
      ((calcCols Real.sqrt (ofCloses [(0 : ℝ), 2]) 2 1).rowOk i = true
        ↔ (2 - 1 ≤ i ∧ svar (winSlice 2 i [(0 : ℝ), 2]) ≠ 0)))
    ∧ (calculate_bollinger_bands Real.sqrt (ofCloses [(0 : ℝ), 2]) 2 1).2.getCol "Close"
        = (calcCols Real.sqrt (ofCloses [(0 : ℝ), 2]) 2 1).keptRows.map
            (fun i => some ([(0 : ℝ), 2].getD i 0))
    ∧ (calculate_bollinger_bands Real.sqrt (ofCloses [(0 : ℝ), 2]) 2 1).2.nrows
        = (calcCols Real.sqrt (ofCloses [(0 : ℝ), 2]) 2 1).keptRows.length :=
  claim_C8_alignment [(0 : ℝ), 2] 2 1 (by decide) (by norm_num) (by decide)

/-- C9 counterexample: the band computation DOES modify its input — the
six assignments of source lines 59-72 add columns to the caller's frame
in place, so after the call the caller's column set differs from what it
was before. -/
theorem claim_C9_counterexample :
    (calculate_bollinger_bands Real.sqrt (ofCloses [(1 : ℝ), 2]) 2 1).1.colNames
      ≠ (ofCloses [(1 : ℝ), 2]).colNames := by
  decide

/-- C9 (amended): `calculate_bollinger_bands` mutates the caller's frame
in place, appending exactly the six band columns (when none of their
names is already present); every pre-existing column — in particular the
price entries — keeps its exact values, and the returned frame is a
separate `dropna` copy. -/
theorem claim_C9_mutates_in_place (df : DFrame ℝ) (w : Nat) (k : ℝ)
    (hclose : df.hasCol "Close" = true) (hlen : w ≤ df.nrows)
    (hfresh : ∀ n ∈ newCols, df.hasCol n = false) :
    (calculate_bollinger_bands Real.sqrt df w k).1.colNames = df.colNames ++ newCols
    ∧ (∀ m, df.hasCol m = true →
        (calculate_bollinger_bands Real.sqrt df w k).1.getCol m = df.getCol m)
    ∧ (calculate_bollinger_bands Real.sqrt df w k).2
        = (calculate_bollinger_bands Real.sqrt df w k).1.dropna := by
  have hguard : calculate_bollinger_bands Real.sqrt df w k
      = (calcCols Real.sqrt df w k, (calcCols Real.sqrt df w k).dropna) := by
    unfold calculate_bollinger_bands
    rw [if_neg]
    rw [not_or]
    exact ⟨by simp [hclose], by omega⟩
  rw [hguard]
  have hcf := calcCols_fresh_cols Real.sqrt df w k hfresh
  exact ⟨hcf.1, hcf.2, rfl⟩

/-- Witness for C9's amended theorem at a 3-row, Close-only frame. -/
theorem claim_C9_witness :
    (calculate_bollinger_bands Real.sqrt (ofCloses [(1 : ℝ), 2, 3]) 2 1).1.colNames
      = (ofCloses [(1 : ℝ), 2, 3]).colNames ++ newCols :=
  (claim_C9_mutates_in_place (ofCloses [(1 : ℝ), 2, 3]) 2 1 (by decide) (by decide)
    (by decide)).1

/-- Witness for C10: `[1, 2, 9]` and `[1, 2, 7]` agree up to index 1, so the
computed cells at index 1 coincide. -/
theorem claim_C10_witness :
    ((calcCols Real.sqrt (ofCloses [(1 : ℝ), 2, 9]) 2 2).getCol "Middle_Band").getD 1 none
        = ((calcCols Real.sqrt (ofCloses [(1 : ℝ), 2, 7]) 2 2).getCol "Middle_Band").getD 1 none
    ∧ ((calcCols Real.sqrt (ofCloses [(1 : ℝ), 2, 9]) 2 2).getCol "STD").getD 1 none
        = ((calcCols Real.sqrt (ofCloses [(1 : ℝ), 2, 7]) 2 2).getCol "STD").getD 1 none
    ∧ ((calcCols Real.sqrt (ofCloses [(1 : ℝ), 2, 9]) 2 2).getCol "Upper_Band").getD 1 none
        = ((calcCols Real.sqrt (ofCloses [(1 : ℝ), 2, 7]) 2 2).getCol "Upper_Band").getD 1 none
    ∧ ((calcCols Real.sqrt (ofCloses [(1 : ℝ), 2, 9]) 2 2).getCol "Lower_Band").getD 1 none
        = ((calcCols Real.sqrt (ofCloses [(1 : ℝ), 2, 7]) 2 2).getCol "Lower_Band").getD 1 none
    ∧ ((calcCols Real.sqrt (ofCloses [(1 : ℝ), 2, 9]) 2 2).getCol "Bandwidth").getD 1 none
        = ((calcCols Real.sqrt (ofCloses [(1 : ℝ), 2, 7]) 2 2).getCol "Bandwidth").getD 1 none
    ∧ ((calcCols Real.sqrt (ofCloses [(1 : ℝ), 2, 9]) 2 2).getCol "Pct_B").getD 1 none
        = ((calcCols Real.sqrt (ofCloses [(1 : ℝ), 2, 7]) 2 2).getCol "Pct_B").getD 1 none :=
  claim_C10_causality [(1 : ℝ), 2, 9] [(1 : ℝ), 2, 7] 2 2 1 (by decide) (by decide) (by decide)
    (by norm_num)

end BollingerScan
